import Mathlib

/-!
# marketplace-booking, `cmd/course`: bootstrap and shutdown coordination

A shallow embedding of `cmd/course/commands/server.go` (the `start` and `seed`
subcommands) and of `cmd/course/main.go`.

The two `RunE` bodies are sequential Go code that talks to external packages
(`config`, `instrumentation`, `postgres`, `redis`, `apiserver`, `catalog`) and
that starts one goroutine listening on a signal channel.  They are embedded as
a small-step machine:

* the main goroutine has a program counter named after the source line that
  is executed next, and carries the local variables that are live there;
* the listener goroutine (`go func() ...`) has its own program counter;
* the Go runtime delivers signals (`deliver`);
* a schedule is a list of events, each one step of one of the three, so that
  a statement about every schedule is a statement about every interleaving.

The external packages are not part of the embedded code: what they return is
given by a `World`, and every call made to them is appended to a trace.  Their
calls return (a constructor that ends the process by itself is outside the
embedding).

What is used of the libraries and of the Go runtime:

* zerolog: `log.Fatal().Err(err).Msg(msg)` writes the line and calls `os.Exit(1)`;
* `os.Exit` ends the process at once, deferred calls are not run;
* `os/signal`: a signal passed to `signal.Notify(ch, ...)` is sent to `ch` without
  blocking (it is dropped when the buffer is full); an interrupt or SIGTERM that
  is not passed to `signal.Notify` ends the process;
* `context`: `cancel` is idempotent, a cancelled context stays cancelled;
* cobra: `Execute` returns the error that the `RunE` of the chosen subcommand
  returns.
-/

namespace Course

/-! ## Values -/

/-- The two signals the commands register for: `os.Interrupt` and `syscall.SIGTERM`. -/
inductive Signal
  | Interrupt
  | SIGTERM
  deriving DecidableEq

/-- A non-nil Go `error`; `Option Err` is an `error` that may be `nil`. -/
abbrev Err := String

/-- Modelled from the spec: the logging configuration `conf.Log`; its type is declared in
`internal/config`, outside the source files. -/
structure LogConf where
  descr : String
  deriving DecidableEq

/-- Modelled from the spec: the database connection descriptor `conf.DB`; its type is declared
in `internal/config`, outside the source files. -/
structure DBConf where
  descr : String
  deriving DecidableEq

/-- Modelled from the spec: the cache connection descriptor `conf.Redis`; its type is declared
in `internal/config`, outside the source files. -/
structure RedisConf where
  descr : String
  deriving DecidableEq

/-- Modelled from the spec: the configuration value returned by `config.NewServer`, with the
three fields the commands read (`conf.Log`, `conf.DB`, `conf.Redis`). -/
structure Config where
  Log : LogConf
  DB : DBConf
  Redis : RedisConf
  deriving DecidableEq

/-- Modelled from the spec: the options of the parent command (`opts` is declared next to
`NewCommand`, outside the source files), with the two fields the subcommands read. -/
structure opts where
  configPath : String
  migrationDir : String
  deriving DecidableEq

/-- The options of the `server` command group (`serverOpts`, server.go lines 21-23). -/
structure serverOpts where
  envPrefix : String
  deriving DecidableEq

/-- The handle returned by `postgres.NewSQLx`. -/
structure DBHandle where
  id : Nat
  deriving DecidableEq

/-- The handle returned by `redis.New`. -/
structure RedisHandle where
  id : Nat
  deriving DecidableEq

/-- The `util.Clients` bundle; a field that the composite literal leaves out is `none`. -/
structure Clients where
  DB : Option DBHandle
  Redis : Option RedisHandle
  deriving DecidableEq

/-- The argument of `apiserver.NewServer` (`apiserver.ServerOpts`). -/
structure ServerOpts where
  Config : Config
  Clients : Clients
  deriving DecidableEq

/-- The value returned by `apiserver.NewServer`. -/
structure Server where
  id : Nat
  deriving DecidableEq

/-- The value returned by `catalog.NewStore`. -/
structure Store where
  id : Nat
  deriving DecidableEq

/-- The value returned by `catalog.NewService`. -/
structure Service where
  id : Nat
  deriving DecidableEq

/-- What the external packages return.  `Run` and `Seed` block until they return; the second
argument is whether the context they were given is cancelled at the moment they return. -/
structure World where
  configNewServer : String → String → Except Err Config
  DatabaseUrl : DBConf → String
  Migrate : String → String → Bool → Option Err
  NewSQLx : DBConf → DBHandle
  redisNew : RedisConf → RedisHandle
  apiserverNewServer : ServerOpts → Server
  Run : Server → Bool → Option Err
  NewStore : Option DBHandle → Option RedisHandle → Store
  NewService : Store → Option DBHandle → Service
  Seed : Service → Bool → Option Err

/-- One invocation made by the main goroutine, with its arguments. -/
inductive Call
  | configNewServer (configPath envPrefix : String)
  | InitializeLogger (l : LogConf)
  | WithCancel
  | Notify (sig : Signal)
  | goListener
  | Migrate (dir url : String) (strict : Bool)
  | NewSQLx (d : DBConf)
  | redisNew (r : RedisConf)
  | apiserverNewServer (so : ServerOpts)
  | Run (srv : Server)
  | NewStore (db : Option DBHandle) (redis : Option RedisHandle)
  | NewService (st : Store) (db : Option DBHandle)
  | Seed (svc : Service)
  | logFn
  deriving DecidableEq

/-- The kind of a call, forgetting its arguments. -/
inductive Tag
  | configNewServer | InitializeLogger | WithCancel | Notify | goListener | Migrate
  | NewSQLx | redisNew | apiserverNewServer | Run | NewStore | NewService | Seed | logFn
  deriving DecidableEq

/-- The kind of a call. -/
def Call.tag : Call → Tag
  | .configNewServer _ _ => .configNewServer
  | .InitializeLogger _ => .InitializeLogger
  | .WithCancel => .WithCancel
  | .Notify _ => .Notify
  | .goListener => .goListener
  | .Migrate _ _ _ => .Migrate
  | .NewSQLx _ => .NewSQLx
  | .redisNew _ => .redisNew
  | .apiserverNewServer _ => .apiserverNewServer
  | .Run _ => .Run
  | .NewStore _ _ => .NewStore
  | .NewService _ _ => .NewService
  | .Seed _ => .Seed
  | .logFn => .logFn

/-- A line written through zerolog: `log.Fatal().Err(err).Msg(msg)`, `log.Debug().Msgf(..)`,
and the listener's `log.Warn().Msgf("system call:%+v", oscall)`. -/
inductive LogEntry
  | Fatal (err : Err) (msg : String)
  | Debug (msg : String)
  | Warn (oscall : Signal)
  deriving DecidableEq

/-- Whether the process is alive, has called `os.Exit` (or returned from `main`), or was ended
by the default action of a signal nobody was notified of. -/
inductive Status
  | running
  | exited (code : Nat)
  | killed (sig : Signal)
  deriving DecidableEq

/-- Program counter of the main goroutine: the source line executed next, with the local
variables live at that line.  Lines 47-77 are `newServerStart`, lines 88-111 are
`newServerSeed`, `L11` is line 11 of main.go, reached when `Execute` has returned `err`;
`L77r` and `L111r` are the calls of lines 77 and 111 waiting to return. -/
inductive PC
  | L47
  | L51 (conf : Config)
  | L55 (conf : Config)
  | L57 (conf : Config)
  | L58 (conf : Config)
  | L59 (conf : Config)
  | L65 (conf : Config)
  | L66 (conf : Config)
  | L73 (conf : Config)
  | L74 (conf : Config) (db : DBHandle)
  | L70 (conf : Config) (db : DBHandle) (redis : RedisHandle)
  | L77 (server : Server)
  | L77r (server : Server)
  | L88
  | L92 (conf : Config)
  | L95 (conf : Config)
  | L98 (conf : Config)
  | L99 (conf : Config)
  | L100 (conf : Config)
  | L107 (conf : Config)
  | L109 (clients : Clients)
  | L110 (clients : Clients) (concertStore : Store)
  | L111 (catalogSvc : Service)
  | L111r (catalogSvc : Service)
  | L11 (err : Option Err)
  deriving DecidableEq

/-- Program counter of the listener goroutine (lines 59-63 and 100-104): not started, blocked
on `<-ch`, about to log the received signal, about to call `cancel`, finished. -/
inductive Goroutine
  | notStarted
  | waiting
  | received (oscall : Signal)
  | logged (oscall : Signal)
  | finished
  deriving DecidableEq

/-- The state of the process. -/
structure State where
  /-- Program counter of the main goroutine. -/
  pc : PC
  /-- Whether the process is alive. -/
  status : Status
  /-- The calls made by the main goroutine, oldest first. -/
  trace : List Call
  /-- The lines logged, oldest first. -/
  logs : List LogEntry
  /-- The deferred calls of the running `RunE`, last deferred first. -/
  defers : List Call
  /-- The signals relayed to `ch` by `signal.Notify`. -/
  notify : List Signal
  /-- The buffer of `ch`, a channel of capacity 1. -/
  ch : Option Signal
  /-- Program counter of the listener goroutine. -/
  listener : Goroutine
  /-- Whether `ctx` is cancelled. -/
  cancelled : Bool
  /-- How many times `cancel` was called. -/
  cancelCalls : Nat
  /-- Whether `ctx` was cancelled when it was passed to `Run` (or `Seed`); `none` before. -/
  runCtx : Option Bool
  deriving DecidableEq

/-- The two subcommands. -/
inductive Cmd
  | start
  | seed
  deriving DecidableEq

/-- One step of a schedule. -/
inductive Event
  | main
  | listener
  | signal (sig : Signal)
  deriving DecidableEq

/-! ## The program -/

/-- Append a call to the trace. -/
def call (c : Call) (s : State) : State :=
  { s with trace := s.trace ++ [c] }

/-- The Go `os.Exit`: the process ends at once, deferred calls are not run. -/
def osExit (code : Nat) (s : State) : State :=
  { s with status := .exited code }

/-- The zerolog `log.Fatal().Err(err).Msg(msg)`: writes the line, then calls `os.Exit(1)`. -/
def logFatal (err : Err) (msg : String) (s : State) : State :=
  osExit 1 { s with logs := s.logs ++ [.Fatal err msg] }

/-- A `return err` of `RunE`: the deferred calls run, then `Execute` hands `err` to `main`. -/
def returnE (err : Option Err) (s : State) : State :=
  { s with trace := s.trace ++ s.defers, defers := [], pc := .L11 err }

/-- The `RunE` of the `start` subcommand (server.go lines 46-78), one statement per step. -/
def newServerStart (w : World) (o : opts) (so : serverOpts) (s : State) : State :=
  match s.pc with
  | .L47 =>
    let s := call (.configNewServer o.configPath so.envPrefix) s
    match w.configNewServer o.configPath so.envPrefix with
    | .error err => logFatal err "unable to load config file" s
    | .ok conf => { s with pc := .L51 conf }
  | .L51 conf =>
    let s := call (.InitializeLogger conf.Log) s
    { s with defers := .logFn :: s.defers, pc := .L55 conf }
  | .L55 conf =>
    { call .WithCancel s with cancelled := false, ch := none, pc := .L57 conf }
  | .L57 conf =>
    { call (.Notify .Interrupt) s with notify := .Interrupt :: s.notify, pc := .L58 conf }
  | .L58 conf =>
    { call (.Notify .SIGTERM) s with notify := .SIGTERM :: s.notify, pc := .L59 conf }
  | .L59 conf =>
    { call .goListener s with listener := .waiting, pc := .L65 conf }
  | .L65 conf =>
    { s with logs := s.logs ++ [.Debug ("running migration on " ++ o.migrationDir)],
             pc := .L66 conf }
  | .L66 conf =>
    let s := call (.Migrate o.migrationDir (w.DatabaseUrl conf.DB) true) s
    match w.Migrate o.migrationDir (w.DatabaseUrl conf.DB) true with
    | some err => logFatal err "unable to run migration" s
    | none => { s with pc := .L73 conf }
  | .L73 conf =>
    { call (.NewSQLx conf.DB) s with pc := .L74 conf (w.NewSQLx conf.DB) }
  | .L74 conf db =>
    { call (.redisNew conf.Redis) s with pc := .L70 conf db (w.redisNew conf.Redis) }
  | .L70 conf db redis =>
    let serverOpts : ServerOpts :=
      { Config := conf, Clients := { DB := some db, Redis := some redis } }
    { call (.apiserverNewServer serverOpts) s with pc := .L77 (w.apiserverNewServer serverOpts) }
  | .L77 server =>
    { call (.Run server) s with runCtx := some s.cancelled, pc := .L77r server }
  | .L77r server =>
    returnE (w.Run server s.cancelled) s
  | _ => s

/-- The `RunE` of the `seed` subcommand (server.go lines 87-112), one statement per step. -/
def newServerSeed (w : World) (o : opts) (so : serverOpts) (s : State) : State :=
  match s.pc with
  | .L88 =>
    let s := call (.configNewServer o.configPath so.envPrefix) s
    match w.configNewServer o.configPath so.envPrefix with
    | .error err => logFatal err "unable to load config file" s
    | .ok conf => { s with pc := .L92 conf }
  | .L92 conf =>
    let s := call (.InitializeLogger conf.Log) s
    { s with defers := .logFn :: s.defers, pc := .L95 conf }
  | .L95 conf =>
    { call .WithCancel s with cancelled := false, ch := none, pc := .L98 conf }
  | .L98 conf =>
    { call (.Notify .Interrupt) s with notify := .Interrupt :: s.notify, pc := .L99 conf }
  | .L99 conf =>
    { call (.Notify .SIGTERM) s with notify := .SIGTERM :: s.notify, pc := .L100 conf }
  | .L100 conf =>
    { call .goListener s with listener := .waiting, pc := .L107 conf }
  | .L107 conf =>
    let clients : Clients := { DB := some (w.NewSQLx conf.DB), Redis := none }
    { call (.NewSQLx conf.DB) s with pc := .L109 clients }
  | .L109 clients =>
    { call (.NewStore clients.DB clients.Redis) s with
        pc := .L110 clients (w.NewStore clients.DB clients.Redis) }
  | .L110 clients concertStore =>
    { call (.NewService concertStore clients.DB) s with
        pc := .L111 (w.NewService concertStore clients.DB) }
  | .L111 catalogSvc =>
    { call (.Seed catalogSvc) s with runCtx := some s.cancelled, pc := .L111r catalogSvc }
  | .L111r catalogSvc =>
    returnE (w.Seed catalogSvc s.cancelled) s
  | _ => s

/-- Modelled from the spec: `commands.NewCommand().Execute()`.  `NewCommand` (the root command)
is outside the source files; `Execute` runs the `RunE` of the subcommand named on the command
line and returns the error that `RunE` returns. -/
def Execute (w : World) (c : Cmd) (o : opts) (so : serverOpts) (s : State) : State :=
  match c with
  | .start => newServerStart w o so s
  | .seed => newServerSeed w o so s

/-- The `main` of main.go (lines 9-14) once `Execute` has returned `err`: a non-nil error is
logged with `log.Fatal` (exit status 1), otherwise `main` returns (exit status 0). -/
def main (err : Option Err) (s : State) : State :=
  match err with
  | some e => logFatal e "unable to start server" s
  | none => osExit 0 s

/-- One step of the main goroutine. -/
def mainStep (w : World) (c : Cmd) (o : opts) (so : serverOpts) (s : State) : State :=
  match s.pc with
  | .L11 err => main err s
  | _ => Execute w c o so s

/-- One step of the listener goroutine (lines 59-63, 100-104):
`oscall := <-ch`, then `log.Warn().Msgf("system call:%+v", oscall)`, then `cancel()`. -/
def listener (s : State) : State :=
  match s.listener with
  | .waiting =>
    match s.ch with
    | some oscall => { s with ch := none, listener := .received oscall }
    | none => s
  | .received oscall => { s with logs := s.logs ++ [.Warn oscall], listener := .logged oscall }
  | .logged _ =>
    { s with cancelled := true, cancelCalls := s.cancelCalls + 1, listener := .finished }
  | _ => s

/-- The Go runtime receives `sig`.  A signal passed to `signal.Notify` is sent to `ch` without
blocking, so it is dropped when the buffer is full; `os.Interrupt` and `syscall.SIGTERM` that
nobody was notified of end the process. -/
def deliver (sig : Signal) (s : State) : State :=
  if sig ∈ s.notify then
    match s.ch with
    | none => { s with ch := some sig }
    | some _ => s
  else { s with status := .killed sig }

/-- One step of the process; nothing runs once the process has ended. -/
def step (w : World) (c : Cmd) (o : opts) (so : serverOpts) (s : State) (e : Event) : State :=
  if s.status = .running then
    match e with
    | .main => mainStep w c o so s
    | .listener => listener s
    | .signal sig => deliver sig s
  else s

/-- The state in which the subcommand `c` starts. -/
def init (c : Cmd) : State :=
  { pc := match c with
          | .start => .L47
          | .seed => .L88
    status := .running
    trace := []
    logs := []
    defers := []
    notify := []
    ch := none
    listener := .notStarted
    cancelled := false
    cancelCalls := 0
    runCtx := none }

/-- Run a schedule from a state. -/
def execFrom (w : World) (c : Cmd) (o : opts) (so : serverOpts) (s : State)
    (evs : List Event) : State :=
  evs.foldl (step w c o so) s

/-- Run a schedule from the start of the subcommand. -/
def exec (w : World) (c : Cmd) (o : opts) (so : serverOpts) (evs : List Event) : State :=
  execFrom w c o so (init c) evs

/-- The run in which no signal arrives: `n` steps of the main goroutine. -/
def runMain (w : World) (c : Cmd) (o : opts) (so : serverOpts) (n : Nat) : State :=
  exec w c o so (List.replicate n .main)

/-- How many calls of kind `t` the trace holds. -/
def invocations (t : Tag) (s : State) : Nat :=
  (s.trace.map Call.tag).count t

/-- The signals of the `system call` warnings logged, oldest first. -/
def warnings (logs : List LogEntry) : List Signal :=
  logs.filterMap fun l =>
    match l with
    | .Warn oscall => some oscall
    | _ => none

/-! ## The calls of a complete run -/

/-- The argument `start` passes to `apiserver.NewServer` (lines 70-76). -/
def startServerOpts (w : World) (conf : Config) : ServerOpts :=
  { Config := conf
    Clients := { DB := some (w.NewSQLx conf.DB), Redis := some (w.redisNew conf.Redis) } }

/-- The server `start` runs. -/
def startServer (w : World) (conf : Config) : Server :=
  w.apiserverNewServer (startServerOpts w conf)

/-- The calls of a complete run of `start` with configuration `conf`, in order. -/
def startCalls (w : World) (o : opts) (so : serverOpts) (conf : Config) : List Call :=
  [ .configNewServer o.configPath so.envPrefix,
    .InitializeLogger conf.Log,
    .WithCancel,
    .Notify .Interrupt,
    .Notify .SIGTERM,
    .goListener,
    .Migrate o.migrationDir (w.DatabaseUrl conf.DB) true,
    .NewSQLx conf.DB,
    .redisNew conf.Redis,
    .apiserverNewServer (startServerOpts w conf),
    .Run (startServer w conf),
    .logFn ]

/-- The clients bundle `seed` builds (lines 106-108): the database handle only. -/
def seedClients (w : World) (conf : Config) : Clients :=
  { DB := some (w.NewSQLx conf.DB), Redis := none }

/-- The store `seed` builds (line 109). -/
def seedStore (w : World) (conf : Config) : Store :=
  w.NewStore (seedClients w conf).DB (seedClients w conf).Redis

/-- The service `seed` builds (line 110). -/
def seedService (w : World) (conf : Config) : Service :=
  w.NewService (seedStore w conf) (seedClients w conf).DB

/-- The calls of a complete run of `seed` with configuration `conf`, in order. -/
def seedCalls (w : World) (o : opts) (so : serverOpts) (conf : Config) : List Call :=
  [ .configNewServer o.configPath so.envPrefix,
    .InitializeLogger conf.Log,
    .WithCancel,
    .Notify .Interrupt,
    .Notify .SIGTERM,
    .goListener,
    .NewSQLx conf.DB,
    .NewStore (some (w.NewSQLx conf.DB)) none,
    .NewService (seedStore w conf) (some (w.NewSQLx conf.DB)),
    .Seed (seedService w conf),
    .logFn ]

/-! ## Invariant of the reachable states -/

/-- Whether the listener goroutine has been started. -/
def started (s : State) : Bool :=
  match s.listener with
  | .notStarted => false
  | _ => true

/-- What the main goroutine determines: its program counter, the status of the process, the
calls made and deferred, the signals relayed, whether the listener was started and whether
`Run` or `Seed` was called. -/
structure View where
  pc : PC
  status : Status
  trace : List Call
  defers : List Call
  notify : List Signal
  started : Bool
  invoked : Bool

/-- The view of a state. -/
def view (s : State) : View :=
  { pc := s.pc, status := s.status, trace := s.trace, defers := s.defers, notify := s.notify,
    started := started s, invoked := s.runCtx.isSome }

/-- The view has made the calls `tr`, holds the deferred calls `df`, relays the signals `nt`,
and has (`st`) or has not started the listener, has (`iv`) or has not called `Run` or `Seed`. -/
def At (v : View) (tr df : List Call) (nt : List Signal) (st iv : Bool) : Prop :=
  v.trace = tr ∧ v.defers = df ∧ v.notify = nt ∧ v.started = st ∧ v.invoked = iv

/-- The process has not called `os.Exit`. -/
def NoExit (v : View) : Prop := ∀ n, v.status ≠ .exited n

/-- What the main goroutine has done, by program counter. -/
def MainInv (w : World) (c : Cmd) (o : opts) (so : serverOpts) (v : View) : Prop :=
  match v.pc with
  | .L47 => c = .start ∧
      ((NoExit v ∧ At v [] [] [] false false) ∨
       (∃ e, w.configNewServer o.configPath so.envPrefix = .error e ∧ v.status = .exited 1 ∧
          At v [.configNewServer o.configPath so.envPrefix] [] [] false false))
  | .L51 conf => c = .start ∧ w.configNewServer o.configPath so.envPrefix = .ok conf ∧
      NoExit v ∧ At v ((startCalls w o so conf).take 1) [] [] false false
  | .L55 conf => c = .start ∧ w.configNewServer o.configPath so.envPrefix = .ok conf ∧
      NoExit v ∧ At v ((startCalls w o so conf).take 2) [.logFn] [] false false
  | .L57 conf => c = .start ∧ w.configNewServer o.configPath so.envPrefix = .ok conf ∧
      NoExit v ∧ At v ((startCalls w o so conf).take 3) [.logFn] [] false false
  | .L58 conf => c = .start ∧ w.configNewServer o.configPath so.envPrefix = .ok conf ∧
      NoExit v ∧ At v ((startCalls w o so conf).take 4) [.logFn] [.Interrupt] false false
  | .L59 conf => c = .start ∧ w.configNewServer o.configPath so.envPrefix = .ok conf ∧
      NoExit v ∧ At v ((startCalls w o so conf).take 5) [.logFn] [.SIGTERM, .Interrupt] false false
  | .L65 conf => c = .start ∧ w.configNewServer o.configPath so.envPrefix = .ok conf ∧
      NoExit v ∧ At v ((startCalls w o so conf).take 6) [.logFn] [.SIGTERM, .Interrupt] true false
  | .L66 conf => c = .start ∧ w.configNewServer o.configPath so.envPrefix = .ok conf ∧
      ((NoExit v ∧
          At v ((startCalls w o so conf).take 6) [.logFn] [.SIGTERM, .Interrupt] true false) ∨
       (∃ e, w.Migrate o.migrationDir (w.DatabaseUrl conf.DB) true = some e ∧
          v.status = .exited 1 ∧
          At v ((startCalls w o so conf).take 7) [.logFn] [.SIGTERM, .Interrupt] true false))
  | .L73 conf => c = .start ∧ w.configNewServer o.configPath so.envPrefix = .ok conf ∧
      w.Migrate o.migrationDir (w.DatabaseUrl conf.DB) true = none ∧
      NoExit v ∧ At v ((startCalls w o so conf).take 7) [.logFn] [.SIGTERM, .Interrupt] true false
  | .L74 conf db => c = .start ∧ w.configNewServer o.configPath so.envPrefix = .ok conf ∧
      w.Migrate o.migrationDir (w.DatabaseUrl conf.DB) true = none ∧
      db = w.NewSQLx conf.DB ∧
      NoExit v ∧ At v ((startCalls w o so conf).take 8) [.logFn] [.SIGTERM, .Interrupt] true false
  | .L70 conf db redis => c = .start ∧ w.configNewServer o.configPath so.envPrefix = .ok conf ∧
      w.Migrate o.migrationDir (w.DatabaseUrl conf.DB) true = none ∧
      db = w.NewSQLx conf.DB ∧ redis = w.redisNew conf.Redis ∧
      NoExit v ∧ At v ((startCalls w o so conf).take 9) [.logFn] [.SIGTERM, .Interrupt] true false
  | .L77 server => c = .start ∧ ∃ conf, w.configNewServer o.configPath so.envPrefix = .ok conf ∧
      w.Migrate o.migrationDir (w.DatabaseUrl conf.DB) true = none ∧
      server = startServer w conf ∧
      NoExit v ∧ At v ((startCalls w o so conf).take 10) [.logFn] [.SIGTERM, .Interrupt] true false
  | .L77r server => c = .start ∧ ∃ conf, w.configNewServer o.configPath so.envPrefix = .ok conf ∧
      w.Migrate o.migrationDir (w.DatabaseUrl conf.DB) true = none ∧
      server = startServer w conf ∧
      NoExit v ∧ At v ((startCalls w o so conf).take 11) [.logFn] [.SIGTERM, .Interrupt] true true
  | .L88 => c = .seed ∧
      ((NoExit v ∧ At v [] [] [] false false) ∨
       (∃ e, w.configNewServer o.configPath so.envPrefix = .error e ∧ v.status = .exited 1 ∧
          At v [.configNewServer o.configPath so.envPrefix] [] [] false false))
  | .L92 conf => c = .seed ∧ w.configNewServer o.configPath so.envPrefix = .ok conf ∧
      NoExit v ∧ At v ((seedCalls w o so conf).take 1) [] [] false false
  | .L95 conf => c = .seed ∧ w.configNewServer o.configPath so.envPrefix = .ok conf ∧
      NoExit v ∧ At v ((seedCalls w o so conf).take 2) [.logFn] [] false false
  | .L98 conf => c = .seed ∧ w.configNewServer o.configPath so.envPrefix = .ok conf ∧
      NoExit v ∧ At v ((seedCalls w o so conf).take 3) [.logFn] [] false false
  | .L99 conf => c = .seed ∧ w.configNewServer o.configPath so.envPrefix = .ok conf ∧
      NoExit v ∧ At v ((seedCalls w o so conf).take 4) [.logFn] [.Interrupt] false false
  | .L100 conf => c = .seed ∧ w.configNewServer o.configPath so.envPrefix = .ok conf ∧
      NoExit v ∧ At v ((seedCalls w o so conf).take 5) [.logFn] [.SIGTERM, .Interrupt] false false
  | .L107 conf => c = .seed ∧ w.configNewServer o.configPath so.envPrefix = .ok conf ∧
      NoExit v ∧ At v ((seedCalls w o so conf).take 6) [.logFn] [.SIGTERM, .Interrupt] true false
  | .L109 clients => c = .seed ∧ ∃ conf, w.configNewServer o.configPath so.envPrefix = .ok conf ∧
      clients = seedClients w conf ∧
      NoExit v ∧ At v ((seedCalls w o so conf).take 7) [.logFn] [.SIGTERM, .Interrupt] true false
  | .L110 clients concertStore => c = .seed ∧
      ∃ conf, w.configNewServer o.configPath so.envPrefix = .ok conf ∧
      clients = seedClients w conf ∧ concertStore = seedStore w conf ∧
      NoExit v ∧ At v ((seedCalls w o so conf).take 8) [.logFn] [.SIGTERM, .Interrupt] true false
  | .L111 catalogSvc => c = .seed ∧
      ∃ conf, w.configNewServer o.configPath so.envPrefix = .ok conf ∧
      catalogSvc = seedService w conf ∧
      NoExit v ∧ At v ((seedCalls w o so conf).take 9) [.logFn] [.SIGTERM, .Interrupt] true false
  | .L111r catalogSvc => c = .seed ∧
      ∃ conf, w.configNewServer o.configPath so.envPrefix = .ok conf ∧
      catalogSvc = seedService w conf ∧
      NoExit v ∧ At v ((seedCalls w o so conf).take 10) [.logFn] [.SIGTERM, .Interrupt] true true
  | .L11 err => ∃ conf, w.configNewServer o.configPath so.envPrefix = .ok conf ∧
      (∀ n, v.status = .exited n → n = if err = none then 0 else 1) ∧
      match c with
      | .start =>
          w.Migrate o.migrationDir (w.DatabaseUrl conf.DB) true = none ∧
          (∃ b, err = w.Run (startServer w conf) b) ∧
          At v (startCalls w o so conf) [] [.SIGTERM, .Interrupt] true true
      | .seed =>
          (∃ b, err = w.Seed (seedService w conf) b) ∧
          At v (seedCalls w o so conf) [] [.SIGTERM, .Interrupt] true true

/-- What the listener goroutine and the signal channel have done. -/
def BridgeInv (s : State) : Prop :=
  (∀ sig, s.ch = some sig → sig ∈ s.notify) ∧
  (∀ sig, s.status = .killed sig → sig ∉ s.notify) ∧
  (s.runCtx = some true → s.cancelled = true) ∧
  match s.listener with
  | .notStarted => s.cancelCalls = 0 ∧ s.cancelled = false ∧ warnings s.logs = []
  | .waiting => s.cancelCalls = 0 ∧ s.cancelled = false ∧ warnings s.logs = []
  | .received _ => s.cancelCalls = 0 ∧ s.cancelled = false ∧ warnings s.logs = []
  | .logged oscall => s.cancelCalls = 0 ∧ s.cancelled = false ∧ warnings s.logs = [oscall]
  | .finished => s.cancelCalls = 1 ∧ s.cancelled = true ∧ (warnings s.logs).length = 1

/-- The invariant of the states a schedule can reach. -/
def Inv (w : World) (c : Cmd) (o : opts) (so : serverOpts) (s : State) : Prop :=
  MainInv w c o so (view s) ∧ BridgeInv s

/-! ## States, schedules and inputs used in the statements -/

/-- The state of `start` once a failed migration has ended the process. -/
def migFailState (w : World) (o : opts) (so : serverOpts) (conf : Config) (e : Err) : State :=
  { pc := .L66 conf
    status := .exited 1
    trace := (startCalls w o so conf).take 7
    logs := [.Debug ("running migration on " ++ o.migrationDir),
             .Fatal e "unable to run migration"]
    defers := [.logFn]
    notify := [.SIGTERM, .Interrupt]
    ch := none
    listener := .waiting
    cancelled := false
    cancelCalls := 0
    runCtx := none }

/-- The state of `start` when `Run` has been called and no signal has arrived. -/
def startRunning (w : World) (o : opts) (so : serverOpts) (conf : Config) : State :=
  { pc := .L77r (startServer w conf)
    status := .running
    trace := (startCalls w o so conf).take 11
    logs := [.Debug ("running migration on " ++ o.migrationDir)]
    defers := [.logFn]
    notify := [.SIGTERM, .Interrupt]
    ch := none
    listener := .waiting
    cancelled := false
    cancelCalls := 0
    runCtx := some false }

/-- The state of `seed` when `Seed` has been called and no signal has arrived. -/
def seedRunning (w : World) (o : opts) (so : serverOpts) (conf : Config) : State :=
  { pc := .L111r (seedService w conf)
    status := .running
    trace := (seedCalls w o so conf).take 10
    logs := []
    defers := [.logFn]
    notify := [.SIGTERM, .Interrupt]
    ch := none
    listener := .waiting
    cancelled := false
    cancelCalls := 0
    runCtx := some false }

/-- A configuration used to run the commands on concrete inputs. -/
def conf0 : Config :=
  { Log := { descr := "info" }, DB := { descr := "course" }, Redis := { descr := "cache" } }

/-- Parent options used to run the commands on concrete inputs. -/
def opts0 : opts :=
  { configPath := "config.yaml", migrationDir := "migrations" }

/-- Server options used to run the commands on concrete inputs: the default of the flag. -/
def serverOpts0 : serverOpts :=
  { envPrefix := "COURSE_SERVER" }

/-- A world used to run the commands on concrete inputs: the configuration fails to load when
`configFails`, the migration fails when `migrateFails`; `Run` returns no error on a cancelled
context and an error otherwise; `Seed` returns no error. -/
def demoWorld (configFails migrateFails : Bool) : World :=
  { configNewServer := fun _ _ => if configFails then .error "no such file" else .ok conf0
    DatabaseUrl := fun d => d.descr
    Migrate := fun _ _ _ => if migrateFails then some "dirty database" else none
    NewSQLx := fun _ => { id := 1 }
    redisNew := fun _ => { id := 2 }
    apiserverNewServer := fun _ => { id := 3 }
    Run := fun _ b => if b then none else some "listen failed"
    NewStore := fun _ _ => { id := 4 }
    NewService := fun _ _ => { id := 5 }
    Seed := fun _ _ => none }

/-- A schedule of `start`: the server is started, a SIGTERM arrives, the listener runs,
`Run` returns, `main` ends. -/
def stopAfterStart : List Event :=
  List.replicate 12 .main ++ [.signal .SIGTERM, .listener, .listener, .listener, .main, .main]

/-- The steps of `start` in the order of the specification (section 4.2, steps 1 to 7), with
the arguments the code passes, stopping at the first step that fails: load the configuration,
initialise logging, create the cancellation context and start the signal listener, run the
migration, construct the clients (database, cache), construct the server, run the server. -/
def startSequence (w : World) (o : opts) (so : serverOpts) : List Call :=
  .configNewServer o.configPath so.envPrefix ::
    match w.configNewServer o.configPath so.envPrefix with
    | .error _ => []
    | .ok conf =>
      [.InitializeLogger conf.Log, .WithCancel, .Notify .Interrupt, .Notify .SIGTERM,
        .goListener, .Migrate o.migrationDir (w.DatabaseUrl conf.DB) true] ++
      match w.Migrate o.migrationDir (w.DatabaseUrl conf.DB) true with
      | some _ => []
      | none =>
        [.NewSQLx conf.DB, .redisNew conf.Redis,
          .apiserverNewServer
            { Config := conf
              Clients := { DB := some (w.NewSQLx conf.DB),
                           Redis := some (w.redisNew conf.Redis) } },
          .Run (w.apiserverNewServer
            { Config := conf
              Clients := { DB := some (w.NewSQLx conf.DB),
                           Redis := some (w.redisNew conf.Redis) } })]

/-- Whether a step of `start` fails: the configuration does not load or the migration returns
an error. -/
def startFails (w : World) (o : opts) (so : serverOpts) : Bool :=
  match w.configNewServer o.configPath so.envPrefix with
  | .error _ => true
  | .ok conf => (w.Migrate o.migrationDir (w.DatabaseUrl conf.DB) true).isSome

/-- Whether the line creates the context and the channel (lines 54-56 and 95-97). -/
def isCtxLine : PC → Bool
  | .L55 _ => true
  | .L95 _ => true
  | _ => false

/-- Whether the line starts the listener goroutine (lines 59 and 100). -/
def isGoLine : PC → Bool
  | .L59 _ => true
  | .L100 _ => true
  | _ => false

/-- A delivered signal is held: it is in the buffer of `ch`, or the listener has received it. -/
def stored (s : State) : Bool :=
  s.ch.isSome ||
    match s.listener with
    | .received _ => true
    | .logged _ => true
    | .finished => true
    | _ => false

/-- The signal `sig` is the one the listener handles: it waits in the buffer of `ch` for the
listener, or the listener has received it, or has logged it. -/
def pending (sig : Signal) (s : State) : Prop :=
  match s.listener with
  | .notStarted => False
  | .waiting => s.ch = some sig
  | .received oscall => oscall = sig
  | .logged oscall => oscall = sig
  | .finished => warnings s.logs = [sig]

/-- The listener has handled `sig`: one warning, one call of `cancel`, the context cancelled. -/
def handled (sig : Signal) (s : State) : Prop :=
  s.listener = .finished ∧ s.cancelCalls = 1 ∧ s.cancelled = true ∧ warnings s.logs = [sig]

instance (sig : Signal) (s : State) : Decidable (handled sig s) := by
  unfold handled
  infer_instance

/-- Let the listener goroutine run: three steps take it from `<-ch` to its end. -/
def settle (w : World) (c : Cmd) (o : opts) (so : serverOpts) (s : State) : State :=
  execFrom w c o so s [.listener, .listener, .listener]

/-- A schedule of `start`: the listener is started, an interrupt arrives, and the main
goroutine goes on to call `Run` before the listener goroutine takes a step. -/
def interruptNotYetSeen : List Event :=
  List.replicate 6 .main ++ [.signal .Interrupt] ++ List.replicate 6 .main

/-- A schedule after the listener of `start` is waiting: a SIGTERM, a step of the listener, an
interrupt, a step of the main goroutine. -/
def moreSignals : List Event :=
  [.signal .SIGTERM, .listener, .signal .Interrupt, .main]

/-- How many statements the main goroutine of the subcommand `c` has executed when it is at
`pc`. -/
def pcIndex (c : Cmd) : PC → Nat
  | .L47 => 0
  | .L51 _ => 1
  | .L55 _ => 2
  | .L57 _ => 3
  | .L58 _ => 4
  | .L59 _ => 5
  | .L65 _ => 6
  | .L66 _ => 7
  | .L73 _ => 8
  | .L74 _ _ => 9
  | .L70 _ _ _ => 10
  | .L77 _ => 11
  | .L77r _ => 12
  | .L88 => 0
  | .L92 _ => 1
  | .L95 _ => 2
  | .L98 _ => 3
  | .L99 _ => 4
  | .L100 _ => 5
  | .L107 _ => 6
  | .L109 _ => 7
  | .L110 _ _ => 8
  | .L111 _ => 9
  | .L111r _ => 10
  | .L11 _ =>
    match c with
    | .start => 13
    | .seed => 11

/-- One for a process that has called `os.Exit` or returned from `main`, zero otherwise: the
step of the main goroutine that ends the process does not move its program counter. -/
def exitBit : Status → Nat
  | .exited _ => 1
  | _ => 0

/-- A schedule of `start`: the listener is started, a SIGTERM arrives and the listener
goroutine handles it, so that the context is cancelled before the main goroutine goes on
through the migration to `Run` and to the end of `main`. -/
def cancelledBeforeRun : List Event :=
  List.replicate 6 .main ++ [.signal .SIGTERM, .listener, .listener, .listener] ++
    List.replicate 20 .main

/-- A schedule of `seed`: the listener is started, an interrupt arrives and the listener
goroutine handles it, so that the context is cancelled before the main goroutine goes on to
`Seed` and to the end of `main`. -/
def cancelledBeforeSeed : List Event :=
  List.replicate 6 .main ++ [.signal .Interrupt, .listener, .listener, .listener] ++
    List.replicate 20 .main

/-! ## Preservation of the invariant -/

theorem warnings_append (l₁ l₂ : List LogEntry) :
    warnings (l₁ ++ l₂) = warnings l₁ ++ warnings l₂ := by
  simp [warnings, List.filterMap_append]

theorem warnings_warn (oscall : Signal) : warnings [.Warn oscall] = [oscall] := rfl

theorem warnings_debug (msg : String) : warnings [.Debug msg] = [] := rfl

theorem warnings_fatal (err : Err) (msg : String) : warnings [.Fatal err msg] = [] := rfl

theorem inv_init (w : World) (c : Cmd) (o : opts) (so : serverOpts) : Inv w c o so (init c) := by
  cases c <;> simp [Inv, MainInv, BridgeInv, init, At, NoExit, warnings, view, started]

theorem view_listener (s : State) : view (listener s) = view s := by
  unfold listener
  cases h : s.listener <;> simp [view, started, h]
  cases h2 : s.ch <;> simp [h]

theorem bridge_listener (s : State) (hb : BridgeInv s) : BridgeInv (listener s) := by
  unfold listener
  obtain ⟨h1, h2, h3, h4⟩ := hb
  cases h : s.listener <;> simp only [h] at h4 ⊢
  · exact ⟨h1, h2, h3, by simpa [h] using h4⟩
  · cases hc : s.ch
    · exact ⟨h1, h2, h3, by simpa [h] using h4⟩
    · refine ⟨by simp, h2, h3, by simpa [h] using h4⟩
  · refine ⟨h1, h2, h3, ?_⟩
    simp [warnings_append, warnings_warn, h4]
  · refine ⟨h1, h2, by simp, ?_⟩
    simp [h4]
  · exact ⟨h1, h2, h3, by simpa [h] using h4⟩

theorem inv_listener (w : World) (c : Cmd) (o : opts) (so : serverOpts) (s : State)
    (h : Inv w c o so s) : Inv w c o so (listener s) :=
  ⟨by rw [view_listener]; exact h.1, bridge_listener s h.2⟩

theorem mainInv_killed (w : World) (c : Cmd) (o : opts) (so : serverOpts) (v : View)
    (sig : Signal) (hr : v.status = .running) (h : MainInv w c o so v) :
    MainInv w c o so { v with status := .killed sig } := by
  obtain ⟨pc, status, trace, defers, notify, st, iv⟩ := v
  simp only at hr
  subst hr
  cases pc <;> simp_all [MainInv, At, NoExit]

theorem inv_deliver (w : World) (c : Cmd) (o : opts) (so : serverOpts) (s : State)
    (sig : Signal) (hr : s.status = .running) (h : Inv w c o so s) :
    Inv w c o so (deliver sig s) := by
  obtain ⟨hm, h1, h2, h3, h4⟩ := h
  unfold deliver
  split
  · next hin =>
    cases hc : s.ch
    · exact ⟨hm, by simpa using hin, h2, h3, h4⟩
    · exact ⟨hm, h1, h2, h3, h4⟩
  · next hin =>
    refine ⟨mainInv_killed w c o so (view s) sig hr hm, h1, ?_, h3, h4⟩
    intro sig2 h
    simp only [Status.killed.injEq] at h
    subst h
    exact hin


theorem started_false (s : State) : started s = false ↔ s.listener = .notStarted := by
  cases h : s.listener <;> simp [started, h]

theorem bridge_newServerStart (w : World) (o : opts) (so : serverOpts) (s : State)
    (hr : s.status = .running)
    (hm : MainInv w .start o so (view s)) (hb : BridgeInv s) :
    BridgeInv (newServerStart w o so s) := by
  obtain ⟨pc, status, trace, logs, defers, notify, ch, lst, cancelled, cancelCalls, runCtx⟩ := s
  obtain ⟨h1, h2, h3, h4⟩ := hb
  simp only at hr h1 h2 h3 h4
  subst hr
  cases pc <;> simp only [newServerStart, call, returnE, logFatal, osExit, BridgeInv]
  case L47 =>
    split <;>
    · refine ⟨h1, by simp, h3, ?_⟩
      cases lst <;> simpa [warnings_append, warnings_fatal] using h4
  case L66 =>
    split <;>
    · refine ⟨h1, by simp, h3, ?_⟩
      cases lst <;> simpa [warnings_append, warnings_fatal] using h4
  case L55 =>
    have : lst = .notStarted := by
      have := hm.2.2.2.2.2.2.1
      simpa [view, started_false] using this
    subst this
    have hi : runCtx = none := by
      have := hm.2.2.2.2.2.2.2
      simpa [view] using this
    subst hi
    exact ⟨by simp, by simp, by simp, h4.1, trivial, h4.2.2⟩
  case L57 =>
    exact ⟨fun sig h => List.mem_cons_of_mem _ (h1 sig h), by simp, h3, h4⟩
  case L58 =>
    exact ⟨fun sig h => List.mem_cons_of_mem _ (h1 sig h), by simp, h3, h4⟩
  case L59 =>
    have : lst = .notStarted := by
      have := hm.2.2.2.2.2.2.1
      simpa [view, started_false] using this
    subst this
    exact ⟨h1, by simp, h3, by simpa using h4⟩
  case L65 =>
    refine ⟨h1, by simp, h3, ?_⟩
    cases lst <;> simpa [warnings_append, warnings_debug] using h4
  case L77 =>
    refine ⟨h1, by simp, by simp, h4⟩
  all_goals exact ⟨h1, by simp, h3, h4⟩

theorem bridge_newServerSeed (w : World) (o : opts) (so : serverOpts) (s : State)
    (hr : s.status = .running)
    (hm : MainInv w .seed o so (view s)) (hb : BridgeInv s) :
    BridgeInv (newServerSeed w o so s) := by
  obtain ⟨pc, status, trace, logs, defers, notify, ch, lst, cancelled, cancelCalls, runCtx⟩ := s
  obtain ⟨h1, h2, h3, h4⟩ := hb
  simp only at hr h1 h2 h3 h4
  subst hr
  cases pc <;> simp only [newServerSeed, call, returnE, logFatal, osExit, BridgeInv]
  case L88 =>
    split <;>
    · refine ⟨h1, by simp, h3, ?_⟩
      cases lst <;> simpa [warnings_append, warnings_fatal] using h4
  case L95 =>
    have : lst = .notStarted := by
      have := hm.2.2.2.2.2.2.1
      simpa [view, started_false] using this
    subst this
    have hi : runCtx = none := by
      have := hm.2.2.2.2.2.2.2
      simpa [view] using this
    subst hi
    exact ⟨by simp, by simp, by simp, h4.1, trivial, h4.2.2⟩
  case L98 =>
    exact ⟨fun sig h => List.mem_cons_of_mem _ (h1 sig h), by simp, h3, h4⟩
  case L99 =>
    exact ⟨fun sig h => List.mem_cons_of_mem _ (h1 sig h), by simp, h3, h4⟩
  case L100 =>
    have : lst = .notStarted := by
      have := hm.2.2.2.2.2.2.1
      simpa [view, started_false] using this
    subst this
    exact ⟨h1, by simp, h3, by simpa using h4⟩
  case L111 =>
    refine ⟨h1, by simp, by simp, h4⟩
  all_goals exact ⟨h1, by simp, h3, h4⟩

theorem bridge_main (err : Option Err) (s : State)
    (hb : BridgeInv s) : BridgeInv (main err s) := by
  obtain ⟨h1, h2, h3, h4⟩ := hb
  cases err <;> simp only [main, logFatal, osExit, BridgeInv]
  · exact ⟨h1, by simp, h3, h4⟩
  · refine ⟨h1, by simp, h3, ?_⟩
    cases h : s.listener <;> simpa [h, warnings_append, warnings_fatal] using h4

theorem mainInv_newServerStart (w : World) (o : opts) (so : serverOpts) (s : State)
    (hr : s.status = .running) (hm : MainInv w .start o so (view s)) :
    MainInv w .start o so (view (newServerStart w o so s)) := by
  obtain ⟨pc, status, trace, logs, defers, notify, ch, lst, cancelled, cancelCalls, runCtx⟩ := s
  simp only at hr
  subst hr
  cases pc
  case L47 =>
    simp [MainInv, view, At, NoExit] at hm
    simp only [newServerStart, call]
    cases hc : w.configNewServer o.configPath so.envPrefix <;>
      simp_all [MainInv, view, At, NoExit, logFatal, osExit, startCalls, started]
  case L66 conf =>
    simp [MainInv, view, At, NoExit] at hm
    simp only [newServerStart, call]
    cases hc : w.Migrate o.migrationDir (w.DatabaseUrl conf.DB) true <;>
      simp_all [MainInv, view, At, NoExit, logFatal, osExit, startCalls, started]
  case L77 server =>
    simp only [MainInv, view, At, NoExit, started] at hm
    obtain ⟨-, conf, hconf, hmig, rfl, -, rfl, rfl, rfl, hl, hi⟩ := hm
    simp only [MainInv, view, newServerStart, call, At, NoExit, started]
    refine ⟨by simp, conf, ?_⟩
    simp [hconf, hmig, hl, startCalls]
  case L77r server =>
    simp only [MainInv, view, At, NoExit, started] at hm
    obtain ⟨-, conf, hconf, hmig, rfl, -, rfl, rfl, rfl, hl, hi⟩ := hm
    simp only [MainInv, view, newServerStart, returnE, At, NoExit, started]
    refine ⟨conf, hconf, by simp, hmig, ⟨cancelled, rfl⟩, ?_⟩
    simp [hl, hi, startCalls]
  case L11 err => simpa [newServerStart] using hm
  all_goals
    simp [MainInv, view, At, NoExit, started] at hm <;>
    simp [MainInv, view, At, NoExit, started, newServerStart, call, returnE, startCalls, hm,
      startServer, startServerOpts]

theorem mainInv_newServerSeed (w : World) (o : opts) (so : serverOpts) (s : State)
    (hr : s.status = .running) (hm : MainInv w .seed o so (view s)) :
    MainInv w .seed o so (view (newServerSeed w o so s)) := by
  obtain ⟨pc, status, trace, logs, defers, notify, ch, lst, cancelled, cancelCalls, runCtx⟩ := s
  simp only at hr
  subst hr
  cases pc
  case L88 =>
    simp [MainInv, view, At, NoExit] at hm
    simp only [newServerSeed, call]
    cases hc : w.configNewServer o.configPath so.envPrefix <;>
      simp_all [MainInv, view, At, NoExit, logFatal, osExit, seedCalls, started]
  case L107 conf =>
    simp only [MainInv, view, At, NoExit, started] at hm
    obtain ⟨-, hconf, -, rfl, rfl, rfl, hl, hi⟩ := hm
    simp only [MainInv, view, newServerSeed, call, At, NoExit, started]
    refine ⟨by simp, conf, ?_⟩
    simp [hconf, hl, hi, seedCalls, seedClients, seedStore, seedService]
  case L109 clients =>
    simp only [MainInv, view, At, NoExit, started] at hm
    obtain ⟨-, conf, hconf, rfl, -, rfl, rfl, rfl, hl, hi⟩ := hm
    simp only [MainInv, view, newServerSeed, call, At, NoExit, started]
    refine ⟨by simp, conf, ?_⟩
    simp [hconf, hl, hi, seedCalls, seedClients, seedStore, seedService]
  case L110 clients concertStore =>
    simp only [MainInv, view, At, NoExit, started] at hm
    obtain ⟨-, conf, hconf, rfl, rfl, -, rfl, rfl, rfl, hl, hi⟩ := hm
    simp only [MainInv, view, newServerSeed, call, At, NoExit, started]
    refine ⟨by simp, conf, ?_⟩
    simp [hconf, hl, hi, seedCalls, seedClients, seedStore, seedService]
  case L111 catalogSvc =>
    simp only [MainInv, view, At, NoExit, started] at hm
    obtain ⟨-, conf, hconf, rfl, -, rfl, rfl, rfl, hl, hi⟩ := hm
    simp only [MainInv, view, newServerSeed, call, At, NoExit, started]
    refine ⟨by simp, conf, ?_⟩
    simp [hconf, hl, hi, seedCalls, seedClients, seedStore, seedService]
  case L111r catalogSvc =>
    simp only [MainInv, view, At, NoExit, started] at hm
    obtain ⟨-, conf, hconf, rfl, -, rfl, rfl, rfl, hl, hi⟩ := hm
    simp only [MainInv, view, newServerSeed, returnE, At, NoExit, started]
    refine ⟨conf, hconf, by simp, ⟨cancelled, rfl⟩, ?_⟩
    simp [hl, hi, seedCalls]
  case L11 err => simpa [newServerSeed] using hm
  all_goals
    simp [MainInv, view, At, NoExit, started] at hm <;>
    simp [MainInv, view, At, NoExit, started, newServerSeed, call, returnE, seedCalls, hm]

theorem mainInv_main (w : World) (c : Cmd) (o : opts) (so : serverOpts) (s : State)
    (err : Option Err) (hpc : s.pc = .L11 err) (hr : s.status = .running)
    (hm : MainInv w c o so (view s)) : MainInv w c o so (view (main err s)) := by
  obtain ⟨pc, status, trace, logs, defers, notify, ch, lst, cancelled, cancelCalls, runCtx⟩ := s
  simp only at hr hpc
  subst hr hpc
  simp only [MainInv, view] at hm
  obtain ⟨conf, hconf, -, hm⟩ := hm
  cases err
  · simp only [main, osExit, MainInv, view]
    refine ⟨conf, hconf, by simp, ?_⟩
    cases c <;> simpa [At] using hm
  · simp only [main, logFatal, osExit, MainInv, view]
    refine ⟨conf, hconf, by simp, ?_⟩
    cases c <;> simpa [At] using hm

theorem inv_mainStep (w : World) (c : Cmd) (o : opts) (so : serverOpts) (s : State)
    (hr : s.status = .running) (h : Inv w c o so s) : Inv w c o so (mainStep w c o so s) := by
  obtain ⟨hm, hb⟩ := h
  unfold mainStep
  split
  · next err hpc => exact ⟨mainInv_main w c o so s err hpc hr hm, bridge_main err s hb⟩
  · cases c
    · exact ⟨mainInv_newServerStart w o so s hr hm, bridge_newServerStart w o so s hr hm hb⟩
    · exact ⟨mainInv_newServerSeed w o so s hr hm, bridge_newServerSeed w o so s hr hm hb⟩

theorem inv_step (w : World) (c : Cmd) (o : opts) (so : serverOpts) (s : State) (e : Event)
    (h : Inv w c o so s) : Inv w c o so (step w c o so s e) := by
  unfold step
  split
  · next hr =>
    cases e
    · exact inv_mainStep w c o so s hr h
    · exact inv_listener w c o so s h
    · exact inv_deliver w c o so s _ hr h
  · exact h

theorem inv_execFrom (w : World) (c : Cmd) (o : opts) (so : serverOpts) (evs : List Event)
    (s : State) (h : Inv w c o so s) : Inv w c o so (execFrom w c o so s evs) := by
  induction evs generalizing s with
  | nil => exact h
  | cons e evs ih => exact ih _ (inv_step w c o so s e h)

theorem inv_exec (w : World) (c : Cmd) (o : opts) (so : serverOpts) (evs : List Event) :
    Inv w c o so (exec w c o so evs) :=
  inv_execFrom w c o so evs _ (inv_init w c o so)

theorem execFrom_append (w : World) (c : Cmd) (o : opts) (so : serverOpts) (s : State)
    (evs₁ evs₂ : List Event) :
    execFrom w c o so s (evs₁ ++ evs₂) = execFrom w c o so (execFrom w c o so s evs₁) evs₂ := by
  simp [execFrom, List.foldl_append]

theorem step_of_not_running (w : World) (c : Cmd) (o : opts) (so : serverOpts) (s : State)
    (e : Event) (h : s.status ≠ .running) : step w c o so s e = s := by
  simp [step, h]

theorem execFrom_of_not_running (w : World) (c : Cmd) (o : opts) (so : serverOpts)
    (evs : List Event) (s : State) (h : s.status ≠ .running) : execFrom w c o so s evs = s := by
  induction evs with
  | nil => rfl
  | cons e evs ih =>
    show execFrom w c o so (step w c o so s e) evs = s
    rw [step_of_not_running w c o so s e h]
    exact ih

theorem runMain_add (w : World) (c : Cmd) (o : opts) (so : serverOpts) (k n : Nat) :
    runMain w c o so (k + n) =
      execFrom w c o so (runMain w c o so k) (List.replicate n .main) := by
  unfold runMain exec
  rw [List.replicate_add, execFrom_append]

theorem runMain_stable (w : World) (c : Cmd) (o : opts) (so : serverOpts) (k n : Nat)
    (h : (runMain w c o so k).status ≠ .running) (hn : k ≤ n) :
    runMain w c o so n = runMain w c o so k := by
  obtain ⟨m, rfl⟩ := Nat.exists_eq_add_of_le hn
  rw [runMain_add, execFrom_of_not_running _ _ _ _ _ _ h]

theorem runMain_succ (w : World) (c : Cmd) (o : opts) (so : serverOpts) (n : Nat) :
    runMain w c o so (n + 1) = step w c o so (runMain w c o so n) .main := by
  rw [runMain_add]
  rfl

/-! ## The shape of the reachable states -/

theorem shape_config_error (w : World) (c : Cmd) (o : opts) (so : serverOpts) (e : Err)
    (hconf : w.configNewServer o.configPath so.envPrefix = .error e) (s : State)
    (h : Inv w c o so s) :
    (s.trace = [] ∧ ∀ n, s.status ≠ .exited n) ∨
    (s.trace = [.configNewServer o.configPath so.envPrefix] ∧ s.status = .exited 1) := by
  obtain ⟨hm, -⟩ := h
  obtain ⟨pc, status, trace, logs, defers, notify, ch, lst, cancelled, cancelCalls, runCtx⟩ := s
  cases pc <;> simp [MainInv, view, At, NoExit, hconf] at hm
  all_goals
    obtain ⟨-, h | h⟩ := hm
    · exact .inl ⟨h.2.1, h.1⟩
    · exact .inr ⟨h.2.1, h.1⟩

theorem shape_start_migFail (w : World) (o : opts) (so : serverOpts) (conf : Config) (e : Err)
    (hconf : w.configNewServer o.configPath so.envPrefix = .ok conf)
    (hmig : w.Migrate o.migrationDir (w.DatabaseUrl conf.DB) true = some e)
    (s : State) (h : Inv w .start o so s) :
    (∃ k, k < 7 ∧ s.trace = (startCalls w o so conf).take k ∧ ∀ n, s.status ≠ .exited n) ∨
    (s.trace = (startCalls w o so conf).take 7 ∧ s.status = .exited 1) := by
  obtain ⟨hm, -⟩ := h
  obtain ⟨pc, status, trace, logs, defers, notify, ch, lst, cancelled, cancelCalls, runCtx⟩ := s
  cases pc <;> simp [MainInv, view, At, NoExit, hconf, hmig] at hm
  case L47 => exact .inl ⟨0, by simp, by simp [hm], hm.1⟩
  case L51 => exact .inl ⟨1, by simp, by simp [hm], hm.2.1⟩
  case L55 => exact .inl ⟨2, by simp, by simp [hm], hm.2.1⟩
  case L57 => exact .inl ⟨3, by simp, by simp [hm], hm.2.1⟩
  case L58 => exact .inl ⟨4, by simp, by simp [hm], hm.2.1⟩
  case L59 => exact .inl ⟨5, by simp, by simp [hm], hm.2.1⟩
  case L65 => exact .inl ⟨6, by simp, by simp [hm], hm.2.1⟩
  case L66 =>
    obtain ⟨rfl, hm | hm⟩ := hm
    · exact .inl ⟨6, by simp, by simp [hm], hm.1⟩
    · exact .inr ⟨hm.2.2.1, hm.2.1⟩
  all_goals simp [← hm.1, hmig] at hm

theorem shape_start_ok (w : World) (o : opts) (so : serverOpts) (conf : Config)
    (hconf : w.configNewServer o.configPath so.envPrefix = .ok conf)
    (hmig : w.Migrate o.migrationDir (w.DatabaseUrl conf.DB) true = none)
    (s : State) (h : Inv w .start o so s) :
    (∃ k, k < 12 ∧ s.trace = (startCalls w o so conf).take k ∧ (s.runCtx.isSome ↔ 11 ≤ k) ∧
      (∀ err, s.pc ≠ .L11 err) ∧ ∀ n, s.status ≠ .exited n) ∨
    (s.trace = startCalls w o so conf ∧ s.runCtx.isSome ∧
      ∃ b, s.pc = .L11 (w.Run (startServer w conf) b) ∧
        ∀ n, s.status = .exited n →
          n = if w.Run (startServer w conf) b = none then 0 else 1) := by
  obtain ⟨hm, -⟩ := h
  obtain ⟨pc, status, trace, logs, defers, notify, ch, lst, cancelled, cancelCalls, runCtx⟩ := s
  cases pc <;> simp [MainInv, view, At, NoExit, hconf, hmig] at hm
  case L47 => exact .inl ⟨0, by simp, by simp [hm], by simp [hm], by simp, hm.1⟩
  case L51 => exact .inl ⟨1, by simp, by simp [hm], by simp [hm], by simp, hm.2.1⟩
  case L55 => exact .inl ⟨2, by simp, by simp [hm], by simp [hm], by simp, hm.2.1⟩
  case L57 => exact .inl ⟨3, by simp, by simp [hm], by simp [hm], by simp, hm.2.1⟩
  case L58 => exact .inl ⟨4, by simp, by simp [hm], by simp [hm], by simp, hm.2.1⟩
  case L59 => exact .inl ⟨5, by simp, by simp [hm], by simp [hm], by simp, hm.2.1⟩
  case L65 => exact .inl ⟨6, by simp, by simp [hm], by simp [hm], by simp, hm.2.1⟩
  case L66 =>
    obtain ⟨rfl, hm | hm⟩ := hm
    · exact .inl ⟨6, by simp, by simp [hm], by simp [hm], by simp, hm.1⟩
    · simp [hmig] at hm
  case L73 => exact .inl ⟨7, by simp, by simp [hm], by simp [hm], by simp, hm.2.2.1⟩
  case L74 => exact .inl ⟨8, by simp, by simp [hm], by simp [hm], by simp, hm.2.2.2.1⟩
  case L70 => exact .inl ⟨9, by simp, by simp [hm], by simp [hm], by simp, hm.2.2.2.2.1⟩
  case L77 => exact .inl ⟨10, by simp, by simp [hm], by simp [hm], by simp, hm.2.1⟩
  case L77r => exact .inl ⟨11, by simp, by simp [hm], by simp [hm], by simp, hm.2.1⟩
  case L11 err =>
    obtain ⟨hn, hb, ht, -, -, -, hi⟩ := hm
    refine .inr ⟨ht, hi, ?_⟩
    rcases hb with hb | hb
    · exact ⟨false, by simp [hb], by simpa [hb] using hn⟩
    · exact ⟨true, by simp [hb], by simpa [hb] using hn⟩

theorem shape_seed_ok (w : World) (o : opts) (so : serverOpts) (conf : Config)
    (hconf : w.configNewServer o.configPath so.envPrefix = .ok conf)
    (s : State) (h : Inv w .seed o so s) :
    (∃ k, k < 11 ∧ s.trace = (seedCalls w o so conf).take k ∧ (s.runCtx.isSome ↔ 10 ≤ k) ∧
      (∀ err, s.pc ≠ .L11 err) ∧ ∀ n, s.status ≠ .exited n) ∨
    (s.trace = seedCalls w o so conf ∧ s.runCtx.isSome ∧
      ∃ b, s.pc = .L11 (w.Seed (seedService w conf) b) ∧
        ∀ n, s.status = .exited n →
          n = if w.Seed (seedService w conf) b = none then 0 else 1) := by
  obtain ⟨hm, -⟩ := h
  obtain ⟨pc, status, trace, logs, defers, notify, ch, lst, cancelled, cancelCalls, runCtx⟩ := s
  cases pc <;> simp [MainInv, view, At, NoExit, hconf] at hm
  case L88 => exact .inl ⟨0, by simp, by simp [hm], by simp [hm], by simp, hm.1⟩
  case L92 => exact .inl ⟨1, by simp, by simp [hm], by simp [hm], by simp, hm.2.1⟩
  case L95 => exact .inl ⟨2, by simp, by simp [hm], by simp [hm], by simp, hm.2.1⟩
  case L98 => exact .inl ⟨3, by simp, by simp [hm], by simp [hm], by simp, hm.2.1⟩
  case L99 => exact .inl ⟨4, by simp, by simp [hm], by simp [hm], by simp, hm.2.1⟩
  case L100 => exact .inl ⟨5, by simp, by simp [hm], by simp [hm], by simp, hm.2.1⟩
  case L107 => exact .inl ⟨6, by simp, by simp [hm], by simp [hm], by simp, hm.2.1⟩
  case L109 => exact .inl ⟨7, by simp, by simp [hm], by simp [hm], by simp, hm.2.1⟩
  case L110 => exact .inl ⟨8, by simp, by simp [hm], by simp [hm], by simp, hm.2.2.1⟩
  case L111 => exact .inl ⟨9, by simp, by simp [hm], by simp [hm], by simp, hm.2.1⟩
  case L111r => exact .inl ⟨10, by simp, by simp [hm], by simp [hm], by simp, hm.2.1⟩
  case L11 err =>
    obtain ⟨hn, hb, ht, -, -, -, hi⟩ := hm
    refine .inr ⟨ht, hi, ?_⟩
    rcases hb with hb | hb
    · exact ⟨false, by simp [hb], by simpa [hb] using hn⟩
    · exact ⟨true, by simp [hb], by simpa [hb] using hn⟩

/-! ## Runs without signals -/

theorem runMain_config_error (w : World) (c : Cmd) (o : opts) (so : serverOpts) (e : Err)
    (hconf : w.configNewServer o.configPath so.envPrefix = .error e) (n : Nat) (hn : 1 ≤ n) :
    (runMain w c o so n).status = .exited 1 ∧
    (runMain w c o so n).trace = [.configNewServer o.configPath so.envPrefix] := by
  have h1 : (runMain w c o so 1).status = .exited 1 ∧
      (runMain w c o so 1).trace = [.configNewServer o.configPath so.envPrefix] := by
    cases c <;>
      simp [runMain, exec, execFrom, List.replicate, step, mainStep, Execute, newServerStart,
        newServerSeed, init, call, hconf, logFatal, osExit]
  rw [runMain_stable w c o so 1 n (by simp [h1.1]) hn]
  exact h1

theorem runMain_start_migFail (w : World) (o : opts) (so : serverOpts) (conf : Config) (e : Err)
    (hconf : w.configNewServer o.configPath so.envPrefix = .ok conf)
    (hmig : w.Migrate o.migrationDir (w.DatabaseUrl conf.DB) true = some e)
    (n : Nat) (hn : 8 ≤ n) :
    runMain w .start o so n = migFailState w o so conf e := by
  have h8 : runMain w .start o so 8 = migFailState w o so conf e := by
    simp [runMain, exec, execFrom, List.replicate, step, mainStep, Execute, newServerStart, init,
      call, hconf, hmig, logFatal, osExit, startCalls, migFailState]
  rw [runMain_stable w .start o so 8 n (by simp [h8, migFailState]) hn, h8]

theorem runMain_start_12 (w : World) (o : opts) (so : serverOpts) (conf : Config)
    (hconf : w.configNewServer o.configPath so.envPrefix = .ok conf)
    (hmig : w.Migrate o.migrationDir (w.DatabaseUrl conf.DB) true = none) :
    runMain w .start o so 12 = startRunning w o so conf := by
  simp [runMain, exec, execFrom, List.replicate, step, mainStep, Execute, newServerStart, init,
    call, hconf, hmig, startCalls, startRunning, startServer, startServerOpts]

theorem runMain_start_13 (w : World) (o : opts) (so : serverOpts) (conf : Config)
    (hconf : w.configNewServer o.configPath so.envPrefix = .ok conf)
    (hmig : w.Migrate o.migrationDir (w.DatabaseUrl conf.DB) true = none) :
    runMain w .start o so 13 =
      { startRunning w o so conf with
        pc := .L11 (w.Run (startServer w conf) false)
        trace := startCalls w o so conf
        defers := [] } := by
  rw [runMain_succ, runMain_start_12 w o so conf hconf hmig]
  simp [step, mainStep, Execute, newServerStart, returnE, startRunning, startCalls]

theorem runMain_start_14 (w : World) (o : opts) (so : serverOpts) (conf : Config)
    (hconf : w.configNewServer o.configPath so.envPrefix = .ok conf)
    (hmig : w.Migrate o.migrationDir (w.DatabaseUrl conf.DB) true = none)
    (n : Nat) (hn : 14 ≤ n) :
    (runMain w .start o so n).status =
        .exited (if w.Run (startServer w conf) false = none then 0 else 1) ∧
    (runMain w .start o so n).trace = startCalls w o so conf ∧
    (runMain w .start o so n).pc = .L11 (w.Run (startServer w conf) false) ∧
    (runMain w .start o so n).runCtx = some false := by
  have h14 : (runMain w .start o so 14).status =
        .exited (if w.Run (startServer w conf) false = none then 0 else 1) ∧
      (runMain w .start o so 14).trace = startCalls w o so conf ∧
      (runMain w .start o so 14).pc = .L11 (w.Run (startServer w conf) false) ∧
      (runMain w .start o so 14).runCtx = some false := by
    rw [runMain_succ, runMain_start_13 w o so conf hconf hmig]
    cases h : w.Run (startServer w conf) false <;>
      simp [step, mainStep, main, logFatal, osExit, startRunning, h]
  rw [runMain_stable w .start o so 14 n (by rw [h14.1]; simp) hn]
  exact h14

theorem runMain_seed_10 (w : World) (o : opts) (so : serverOpts) (conf : Config)
    (hconf : w.configNewServer o.configPath so.envPrefix = .ok conf) :
    runMain w .seed o so 10 = seedRunning w o so conf := by
  simp [runMain, exec, execFrom, List.replicate, step, mainStep, Execute, newServerSeed, init,
    call, hconf, seedCalls, seedRunning, seedService, seedStore, seedClients]

theorem runMain_seed_11 (w : World) (o : opts) (so : serverOpts) (conf : Config)
    (hconf : w.configNewServer o.configPath so.envPrefix = .ok conf) :
    runMain w .seed o so 11 =
      { seedRunning w o so conf with
        pc := .L11 (w.Seed (seedService w conf) false)
        trace := seedCalls w o so conf
        defers := [] } := by
  rw [runMain_succ, runMain_seed_10 w o so conf hconf]
  simp [step, mainStep, Execute, newServerSeed, returnE, seedRunning, seedCalls]

theorem runMain_seed_12 (w : World) (o : opts) (so : serverOpts) (conf : Config)
    (hconf : w.configNewServer o.configPath so.envPrefix = .ok conf)
    (n : Nat) (hn : 12 ≤ n) :
    (runMain w .seed o so n).status =
        .exited (if w.Seed (seedService w conf) false = none then 0 else 1) ∧
    (runMain w .seed o so n).trace = seedCalls w o so conf ∧
    (runMain w .seed o so n).pc = .L11 (w.Seed (seedService w conf) false) ∧
    (runMain w .seed o so n).runCtx = some false := by
  have h12 : (runMain w .seed o so 12).status =
        .exited (if w.Seed (seedService w conf) false = none then 0 else 1) ∧
      (runMain w .seed o so 12).trace = seedCalls w o so conf ∧
      (runMain w .seed o so 12).pc = .L11 (w.Seed (seedService w conf) false) ∧
      (runMain w .seed o so 12).runCtx = some false := by
    rw [runMain_succ, runMain_seed_11 w o so conf hconf]
    cases h : w.Seed (seedService w conf) false <;>
      simp [step, mainStep, main, logFatal, osExit, seedRunning, h]
  rw [runMain_stable w .seed o so 12 n (by rw [h12.1]; simp) hn]
  exact h12

/-! ## Prefixes of the complete trace -/

theorem invocations_le (t : Tag) (s : State) (l : List Call) (h : s.trace <+: l) :
    invocations t s ≤ (l.map Call.tag).count t :=
  ((h.map Call.tag).sublist).count_le t

theorem prefix_config_error (w : World) (c : Cmd) (o : opts) (so : serverOpts) (e : Err)
    (hconf : w.configNewServer o.configPath so.envPrefix = .error e) (s : State)
    (h : Inv w c o so s) : s.trace <+: [.configNewServer o.configPath so.envPrefix] := by
  rcases shape_config_error w c o so e hconf s h with ⟨ht, -⟩ | ⟨ht, -⟩ <;> simp [ht]

theorem prefix_start_migFail (w : World) (o : opts) (so : serverOpts) (conf : Config) (e : Err)
    (hconf : w.configNewServer o.configPath so.envPrefix = .ok conf)
    (hmig : w.Migrate o.migrationDir (w.DatabaseUrl conf.DB) true = some e)
    (s : State) (h : Inv w .start o so s) : s.trace <+: (startCalls w o so conf).take 7 := by
  rcases shape_start_migFail w o so conf e hconf hmig s h with ⟨k, hk, ht, -⟩ | ⟨ht, -⟩
  · rw [ht]
    exact (List.take_prefix_take_left _ (Nat.le_of_lt hk))
  · rw [ht]

theorem prefix_start_ok (w : World) (o : opts) (so : serverOpts) (conf : Config)
    (hconf : w.configNewServer o.configPath so.envPrefix = .ok conf)
    (hmig : w.Migrate o.migrationDir (w.DatabaseUrl conf.DB) true = none)
    (s : State) (h : Inv w .start o so s) : s.trace <+: startCalls w o so conf := by
  rcases shape_start_ok w o so conf hconf hmig s h with ⟨k, -, ht, -⟩ | ⟨ht, -⟩
  · rw [ht]
    exact List.take_prefix _ _
  · rw [ht]

theorem prefix_seed_ok (w : World) (o : opts) (so : serverOpts) (conf : Config)
    (hconf : w.configNewServer o.configPath so.envPrefix = .ok conf)
    (s : State) (h : Inv w .seed o so s) : s.trace <+: seedCalls w o so conf := by
  rcases shape_seed_ok w o so conf hconf s h with ⟨k, -, ht, -⟩ | ⟨ht, -⟩
  · rw [ht]
    exact List.take_prefix _ _
  · rw [ht]

theorem trace_mainStep (w : World) (c : Cmd) (o : opts) (so : serverOpts) (s : State) :
    s.trace <+: (mainStep w c o so s).trace := by
  obtain ⟨pc, status, trace, logs, defers, notify, ch, lst, cancelled, cancelCalls, runCtx⟩ := s
  cases pc <;> cases c <;>
    simp only [mainStep, Execute, newServerStart, newServerSeed, call, returnE, main]
  any_goals exact List.prefix_append _ _
  any_goals exact List.prefix_refl _
  all_goals split <;> simp [logFatal, osExit]

theorem trace_listener (s : State) : (listener s).trace = s.trace := by
  unfold listener
  split
  · split <;> rfl
  all_goals rfl

theorem trace_deliver (sig : Signal) (s : State) : (deliver sig s).trace = s.trace := by
  unfold deliver
  split
  · split <;> rfl
  · rfl

theorem trace_step (w : World) (c : Cmd) (o : opts) (so : serverOpts) (s : State) (e : Event) :
    s.trace <+: (step w c o so s e).trace := by
  unfold step
  split
  · cases e
    · exact trace_mainStep w c o so s
    · simp [trace_listener]
    · simp [trace_deliver]
  · exact List.prefix_refl _

theorem trace_execFrom (w : World) (c : Cmd) (o : opts) (so : serverOpts) (evs : List Event)
    (s : State) : s.trace <+: (execFrom w c o so s evs).trace := by
  induction evs generalizing s with
  | nil => exact List.prefix_refl _
  | cons e evs ih => exact (trace_step w c o so s e).trans (ih _)

theorem trace_runMain (w : World) (c : Cmd) (o : opts) (so : serverOpts) (k n : Nat)
    (h : k ≤ n) : (runMain w c o so k).trace <+: (runMain w c o so n).trace := by
  obtain ⟨m, rfl⟩ := Nat.exists_eq_add_of_le h
  rw [runMain_add]
  exact trace_execFrom _ _ _ _ _ _

/-! ## The commands: failures, order of the calls, results -/

/-- C1. When `postgres.Migrate` returns an error in `start`, in every schedule no database
client, cache client or server is constructed and `Run` is never called, and once `Migrate`
has been called the process has exited with status 1 with that call as the last of the trace;
without signals this happens at the eighth step of the main goroutine. -/
theorem start_migration_failure_is_fatal (w : World) (o : opts) (so : serverOpts)
    (conf : Config) (e : Err)
    (hconf : w.configNewServer o.configPath so.envPrefix = .ok conf)
    (hmig : w.Migrate o.migrationDir (w.DatabaseUrl conf.DB) true = some e) :
    (∀ evs : List Event,
      invocations .NewSQLx (exec w .start o so evs) = 0 ∧
      invocations .redisNew (exec w .start o so evs) = 0 ∧
      invocations .apiserverNewServer (exec w .start o so evs) = 0 ∧
      invocations .Run (exec w .start o so evs) = 0 ∧
      (invocations .Migrate (exec w .start o so evs) ≠ 0 →
        (exec w .start o so evs).status = .exited 1 ∧
        (exec w .start o so evs).trace.getLast? =
          some (.Migrate o.migrationDir (w.DatabaseUrl conf.DB) true))) ∧
    (∀ n, 8 ≤ n →
      (runMain w .start o so n).status = .exited 1 ∧
      invocations .Migrate (runMain w .start o so n) = 1) := by
  constructor
  · intro evs
    have hinv := inv_exec w .start o so evs
    have hp := prefix_start_migFail w o so conf e hconf hmig _ hinv
    refine ⟨?_, ?_, ?_, ?_, ?_⟩
    · exact Nat.le_zero.mp (invocations_le _ _ _ hp)
    · exact Nat.le_zero.mp (invocations_le _ _ _ hp)
    · exact Nat.le_zero.mp (invocations_le _ _ _ hp)
    · exact Nat.le_zero.mp (invocations_le _ _ _ hp)
    · intro hne
      rcases shape_start_migFail w o so conf e hconf hmig _ hinv with ⟨k, hk, ht, -⟩ | ⟨ht, hs⟩
      · exfalso
        apply hne
        have : invocations .Migrate (exec w .start o so evs) ≤
            (((startCalls w o so conf).take 6).map Call.tag).count .Migrate :=
          invocations_le _ _ _
            (ht ▸ List.take_prefix_take_left _ (Nat.lt_succ_iff.mp hk))
        exact Nat.le_zero.mp this
      · exact ⟨hs, by rw [ht]; rfl⟩
  · intro n hn
    rw [runMain_start_migFail w o so conf e hconf hmig n hn]
    exact ⟨rfl, rfl⟩

/-- C1, on a concrete input: the migration fails, an interrupt arrives while the main goroutine
is past the migration. -/
theorem start_migration_failure_is_fatal_witness :
    (demoWorld false true).configNewServer opts0.configPath serverOpts0.envPrefix = .ok conf0 ∧
    (demoWorld false true).Migrate opts0.migrationDir
      ((demoWorld false true).DatabaseUrl conf0.DB) true = some "dirty database" ∧
    invocations .NewSQLx (exec (demoWorld false true) .start opts0 serverOpts0
      (List.replicate 9 .main ++ [.signal .Interrupt, .listener, .main])) = 0 ∧
    (runMain (demoWorld false true) .start opts0 serverOpts0 9).status = .exited 1 :=
  ⟨rfl, rfl,
    ((start_migration_failure_is_fatal (demoWorld false true) opts0 serverOpts0 conf0
      "dirty database" rfl rfl).1 _).1,
    ((start_migration_failure_is_fatal (demoWorld false true) opts0 serverOpts0 conf0
      "dirty database" rfl rfl).2 9 (by decide)).1⟩

/-- C2. When `config.NewServer` returns an error, in `start` and in `seed`, in every schedule
the process never exits with status 0 and makes no call other than `config.NewServer`: no
migration, no client, no server, store or service, no `Run`, no `Seed`; without signals the
process exits with status 1 at the first step of the main goroutine. -/
theorem config_failure_is_fatal (w : World) (c : Cmd) (o : opts) (so : serverOpts) (e : Err)
    (hconf : w.configNewServer o.configPath so.envPrefix = .error e) :
    (∀ evs : List Event,
      (exec w c o so evs).status ≠ .exited 0 ∧
      (∀ t, t ≠ .configNewServer → invocations t (exec w c o so evs) = 0)) ∧
    (∀ n, 1 ≤ n → (runMain w c o so n).status = .exited 1) := by
  constructor
  · intro evs
    have hinv := inv_exec w c o so evs
    constructor
    · rcases shape_config_error w c o so e hconf _ hinv with ⟨-, hs⟩ | ⟨-, hs⟩
      · exact hs 0
      · rw [hs]; simp
    · intro t ht
      have := invocations_le t _ _ (prefix_config_error w c o so e hconf _ hinv)
      cases t <;> simp_all [Call.tag]
  · intro n hn
    exact (runMain_config_error w c o so e hconf n hn).1

/-- C2, on a concrete input: `seed` with a configuration that fails to load. -/
theorem config_failure_is_fatal_witness :
    (demoWorld true false).configNewServer opts0.configPath serverOpts0.envPrefix =
      .error "no such file" ∧
    invocations .NewSQLx (exec (demoWorld true false) .seed opts0 serverOpts0
      [.main, .signal .SIGTERM, .main, .listener]) = 0 ∧
    (runMain (demoWorld true false) .seed opts0 serverOpts0 1).status = .exited 1 :=
  ⟨rfl,
    ((config_failure_is_fatal (demoWorld true false) .seed opts0 serverOpts0 "no such file"
      rfl).1 _).2 .NewSQLx (by decide),
    (config_failure_is_fatal (demoWorld true false) .seed opts0 serverOpts0 "no such file"
      rfl).2 1 (by decide)⟩

theorem runMain_start_ge_12 (w : World) (o : opts) (so : serverOpts) (conf : Config)
    (hconf : w.configNewServer o.configPath so.envPrefix = .ok conf)
    (hmig : w.Migrate o.migrationDir (w.DatabaseUrl conf.DB) true = none)
    (n : Nat) (hn : 12 ≤ n) :
    (startCalls w o so conf).take 11 <+: (runMain w .start o so n).trace ∧
    (runMain w .start o so n).trace <+: startCalls w o so conf ∧
    (runMain w .start o so n).runCtx = some false := by
  refine ⟨?_, prefix_start_ok w o so conf hconf hmig _ (inv_exec _ _ _ _ _), ?_⟩
  · have := trace_runMain w .start o so 12 n hn
    rwa [runMain_start_12 w o so conf hconf hmig] at this
  · rcases Nat.lt_or_ge n 14 with h | h
    · have : n = 12 ∨ n = 13 := by omega
      rcases this with rfl | rfl
      · rw [runMain_start_12 w o so conf hconf hmig]; rfl
      · rw [runMain_start_13 w o so conf hconf hmig]; rfl
    · exact (runMain_start_14 w o so conf hconf hmig n h).2.2.2

theorem runMain_seed_ge_10 (w : World) (o : opts) (so : serverOpts) (conf : Config)
    (hconf : w.configNewServer o.configPath so.envPrefix = .ok conf)
    (n : Nat) (hn : 10 ≤ n) :
    (seedCalls w o so conf).take 10 <+: (runMain w .seed o so n).trace ∧
    (runMain w .seed o so n).trace <+: seedCalls w o so conf ∧
    (runMain w .seed o so n).runCtx = some false := by
  refine ⟨?_, prefix_seed_ok w o so conf hconf _ (inv_exec _ _ _ _ _), ?_⟩
  · have := trace_runMain w .seed o so 10 n hn
    rwa [runMain_seed_10 w o so conf hconf] at this
  · rcases Nat.lt_or_ge n 12 with h | h
    · have : n = 10 ∨ n = 11 := by omega
      rcases this with rfl | rfl
      · rw [runMain_seed_10 w o so conf hconf]; rfl
      · rw [runMain_seed_11 w o so conf hconf]; rfl
    · exact (runMain_seed_12 w o so conf hconf n h).2.2.2

theorem invocations_ge (t : Tag) (s : State) (l : List Call) (h : l <+: s.trace) :
    (l.map Call.tag).count t ≤ invocations t s :=
  ((h.map Call.tag).sublist).count_le t

/-- C5. A run of `start` whose migration fails: logging was initialised and its teardown was
deferred, `log.Fatal` then ended the process with status 1, and the teardown was never
called; in the run where the migration succeeds and `Run` returns, it is called once. -/
theorem start_migration_failure_skips_teardown :
    invocations .InitializeLogger (runMain (demoWorld false true) .start opts0 serverOpts0 8)
      = 1 ∧
    (runMain (demoWorld false true) .start opts0 serverOpts0 8).status = .exited 1 ∧
    (runMain (demoWorld false true) .start opts0 serverOpts0 8).defers = [.logFn] ∧
    invocations .logFn (runMain (demoWorld false true) .start opts0 serverOpts0 8) = 0 ∧
    (∀ evs : List Event,
      invocations .logFn (exec (demoWorld false true) .start opts0 serverOpts0 evs) = 0) ∧
    invocations .logFn (runMain (demoWorld false false) .start opts0 serverOpts0 14) = 1 := by
  refine ⟨rfl, rfl, rfl, rfl, ?_, rfl⟩
  intro evs
  exact Nat.le_zero.mp (invocations_le .logFn _ _
    (prefix_start_migFail (demoWorld false true) opts0 serverOpts0 conf0 "dirty database"
      rfl rfl _ (inv_exec _ _ _ _ evs)))

/-! ## What a step of the main goroutine leaves alone -/

theorem mainStep_frame (w : World) (c : Cmd) (o : opts) (so : serverOpts) (s : State)
    (h : isCtxLine s.pc = false) :
    (mainStep w c o so s).ch = s.ch ∧
    (mainStep w c o so s).cancelled = s.cancelled ∧
    (mainStep w c o so s).cancelCalls = s.cancelCalls ∧
    warnings (mainStep w c o so s).logs = warnings s.logs ∧
    (∀ sig, sig ∈ s.notify → sig ∈ (mainStep w c o so s).notify) ∧
    (isGoLine s.pc = false → (mainStep w c o so s).listener = s.listener) ∧
    ((mainStep w c o so s).runCtx = s.runCtx ∨
      (mainStep w c o so s).runCtx = some s.cancelled) := by
  obtain ⟨pc, status, trace, logs, defers, notify, ch, lst, cancelled, cancelCalls, runCtx⟩ := s
  cases pc <;> cases c <;> simp [isCtxLine] at h <;>
    simp only [mainStep, Execute, newServerStart, newServerSeed, call, returnE, main]
  any_goals
    split <;> simp [logFatal, osExit, warnings_append, warnings_fatal]
  all_goals simp [warnings_append, warnings_debug, isGoLine]
  all_goals
    intro sig hs
    exact Or.inr hs

theorem listener_started_of_line (w : World) (c : Cmd) (o : opts) (so : serverOpts) (s : State)
    (h : Inv w c o so s) (hl : isCtxLine s.pc = true ∨ isGoLine s.pc = true) :
    s.listener = .notStarted ∧ (isCtxLine s.pc = true → s.notify = []) := by
  obtain ⟨hm, -⟩ := h
  obtain ⟨pc, status, trace, logs, defers, notify, ch, lst, cancelled, cancelCalls, runCtx⟩ := s
  cases pc <;> simp [isCtxLine, isGoLine] at hl <;>
    simp [MainInv, view, At, started_false] at hm <;> simp [hm, isCtxLine]

theorem notify_of_started (w : World) (c : Cmd) (o : opts) (so : serverOpts) (s : State)
    (h : Inv w c o so s) (hl : s.listener ≠ .notStarted) :
    s.notify = [.SIGTERM, .Interrupt] := by
  obtain ⟨hm, -⟩ := h
  obtain ⟨pc, status, trace, logs, defers, notify, ch, lst, cancelled, cancelCalls, runCtx⟩ := s
  have hst : started
      { pc := pc, status := status, trace := trace, logs := logs, defers := defers,
        notify := notify, ch := ch, listener := lst, cancelled := cancelled,
        cancelCalls := cancelCalls, runCtx := runCtx } = true := by
    cases lst <;> simp_all [started]
  cases pc <;> simp [MainInv, view, At, hst] at hm
  case L11 => cases c <;> aesop
  all_goals aesop

/-! ## The signal bridge -/

theorem status_listener (s : State) : (listener s).status = s.status := by
  unfold listener
  split
  · split <;> rfl
  all_goals rfl

theorem not_ctxLine_of_notify (w : World) (c : Cmd) (o : opts) (so : serverOpts) (s : State)
    (h : Inv w c o so s) (hn : s.notify ≠ []) : isCtxLine s.pc = false := by
  cases hc : isCtxLine s.pc
  · rfl
  · exact absurd ((listener_started_of_line w c o so s h (.inl hc)).2 hc) hn

theorem not_line_of_started (w : World) (c : Cmd) (o : opts) (so : serverOpts) (s : State)
    (h : Inv w c o so s) (hl : s.listener ≠ .notStarted) :
    isCtxLine s.pc = false ∧ isGoLine s.pc = false := by
  constructor
  · cases hc : isCtxLine s.pc
    · rfl
    · exact absurd (listener_started_of_line w c o so s h (.inl hc)).1 hl
  · cases hc : isGoLine s.pc
    · rfl
    · exact absurd (listener_started_of_line w c o so s h (.inr hc)).1 hl

theorem stored_step (w : World) (c : Cmd) (o : opts) (so : serverOpts) (s : State) (e : Event)
    (h : Inv w c o so s) (hn : s.notify ≠ []) (hs : stored s = true) :
    (step w c o so s e).notify ≠ [] ∧ stored (step w c o so s e) = true := by
  unfold step
  split
  · cases e
    · obtain ⟨h1, -, -, -, h5, h6, -⟩ :=
        mainStep_frame w c o so s (not_ctxLine_of_notify w c o so s h hn)
      constructor
      · obtain ⟨x, hx⟩ := List.exists_mem_of_ne_nil _ hn
        exact List.ne_nil_of_mem (h5 x hx)
      · show stored (mainStep w c o so s) = true
        cases hg : isGoLine s.pc
        · simp only [stored, h1, h6 hg] at hs ⊢
          exact hs
        · have hl := (listener_started_of_line w c o so s h (.inr hg)).1
          simp only [stored, hl, Bool.or_false] at hs
          simp [stored, h1, hs]
    · obtain ⟨pc, status, trace, logs, defers, notify, ch, lst, cancelled, cancelCalls,
        runCtx⟩ := s
      cases lst <;> cases ch <;> simp_all [stored, listener]
    · next sig =>
      obtain ⟨pc, status, trace, logs, defers, notify, ch, lst, cancelled, cancelCalls,
        runCtx⟩ := s
      by_cases hin : sig ∈ notify <;> cases lst <;> cases ch <;>
        simp_all [stored, deliver]
  · exact ⟨hn, hs⟩

theorem stored_execFrom (w : World) (c : Cmd) (o : opts) (so : serverOpts) (evs : List Event)
    (s : State) (h : Inv w c o so s) (hn : s.notify ≠ []) (hs : stored s = true) :
    stored (execFrom w c o so s evs) = true := by
  induction evs generalizing s with
  | nil => exact hs
  | cons e evs ih =>
    obtain ⟨h1, h2⟩ := stored_step w c o so s e h hn hs
    exact ih _ (inv_step w c o so s e h) h1 h2

theorem settle_stored (w : World) (c : Cmd) (o : opts) (so : serverOpts) (s : State)
    (hr : s.status = .running) (hl : s.listener ≠ .notStarted) (hs : stored s = true)
    (hb : BridgeInv s) :
    (settle w c o so s).cancelled = true ∧ (settle w c o so s).listener = .finished ∧
    (settle w c o so s).cancelCalls = 1 ∧ (settle w c o so s).status = .running := by
  obtain ⟨pc, status, trace, logs, defers, notify, ch, lst, cancelled, cancelCalls, runCtx⟩ := s
  simp only at hr
  subst hr
  obtain ⟨-, -, -, h4⟩ := hb
  cases lst <;> cases ch <;>
    simp_all [stored, settle, execFrom, step, listener]

theorem finished_of_cancelled (s : State) (hb : BridgeInv s) (hc : s.cancelled = true) :
    s.listener = .finished := by
  obtain ⟨-, -, -, h4⟩ := hb
  cases hl : s.listener <;> simp_all

theorem step_main (w : World) (c : Cmd) (o : opts) (so : serverOpts) (s : State)
    (hr : s.status = .running) : step w c o so s .main = mainStep w c o so s := by
  simp [step, hr]

theorem step_listener (w : World) (c : Cmd) (o : opts) (so : serverOpts) (s : State)
    (hr : s.status = .running) : step w c o so s .listener = listener s := by
  simp [step, hr]

theorem step_signal (w : World) (c : Cmd) (o : opts) (so : serverOpts) (s : State)
    (sig : Signal) (hr : s.status = .running) :
    step w c o so s (.signal sig) = deliver sig s := by
  simp [step, hr]

theorem cancelled_step (w : World) (c : Cmd) (o : opts) (so : serverOpts) (s : State)
    (e : Event) (h : Inv w c o so s) (hc : s.cancelled = true) :
    (step w c o so s e).cancelled = true ∧
    (s.runCtx ≠ some false → (step w c o so s e).runCtx ≠ some false) := by
  have hfin := finished_of_cancelled s h.2 hc
  by_cases hr : s.status = .running
  · cases e with
    | main =>
      rw [step_main w c o so s hr]
      obtain ⟨-, h2, -, -, -, -, h7⟩ :=
        mainStep_frame w c o so s (not_line_of_started w c o so s h (by simp [hfin])).1
      refine ⟨by rw [h2, hc], fun hx => ?_⟩
      rcases h7 with h7 | h7
      · rw [h7]; exact hx
      · rw [h7, hc]; simp
    | listener =>
      rw [step_listener w c o so s hr]
      simp [listener, hfin, hc]
    | signal sig =>
      rw [step_signal w c o so s sig hr]
      unfold deliver
      split
      · split <;> simp [hc]
      · simp [hc]
  · rw [step_of_not_running w c o so s e hr]
    exact ⟨hc, id⟩

theorem cancelled_execFrom (w : World) (c : Cmd) (o : opts) (so : serverOpts)
    (evs : List Event) (s : State) (h : Inv w c o so s) (hc : s.cancelled = true) :
    (execFrom w c o so s evs).cancelled = true ∧
    (s.runCtx ≠ some false → (execFrom w c o so s evs).runCtx ≠ some false) := by
  induction evs generalizing s with
  | nil => exact ⟨hc, id⟩
  | cons e evs ih =>
    obtain ⟨h1, h2⟩ := cancelled_step w c o so s e h hc
    obtain ⟨h3, h4⟩ := ih _ (inv_step w c o so s e h) h1
    exact ⟨h3, fun hx => h4 (h2 hx)⟩

/-- C8, refuted as stated.  A signal that arrives before `signal.Notify` has been called (a
SIGTERM before the first statement of `start`, an interrupt in `seed` right after logging was
initialised) ends the process; and an interrupt that arrives after the listener was started
does not end the process, but `Run` can be called with a context that is not cancelled yet,
the listener goroutine not having run in between (the context is cancelled once it has). -/
theorem signal_before_run_counterexample :
    (exec (demoWorld false false) .start opts0 serverOpts0 [.signal .SIGTERM]).status =
      .killed .SIGTERM ∧
    (exec (demoWorld false false) .seed opts0 serverOpts0
      [.main, .main, .signal .Interrupt]).status = .killed .Interrupt ∧
    (exec (demoWorld false false) .start opts0 serverOpts0 interruptNotYetSeen).status =
      .running ∧
    (exec (demoWorld false false) .start opts0 serverOpts0 interruptNotYetSeen).runCtx =
      some false ∧
    (settle (demoWorld false false) .start opts0 serverOpts0
      (exec (demoWorld false false) .start opts0 serverOpts0 interruptNotYetSeen)).cancelled =
      true := by
  refine ⟨rfl, rfl, rfl, rfl, rfl⟩

/-- C8, amended.  Once both `signal.Notify` calls have been made, a signal does not end the
process and is not lost: whatever is scheduled next, as long as the process runs and the
listener goroutine has been started, letting the listener run cancels the context.  The
cancellation is a state: once the context is cancelled it stays cancelled, and a `Run` or
`Seed` called after that is called with a cancelled context. -/
theorem signal_after_registration_is_stored (w : World) (c : Cmd) (o : opts) (so : serverOpts)
    (evs : List Event) (sig : Signal)
    (hI : .Interrupt ∈ (exec w c o so evs).notify)
    (hT : .SIGTERM ∈ (exec w c o so evs).notify) :
    (step w c o so (exec w c o so evs) (.signal sig)).status = (exec w c o so evs).status ∧
    (∀ evs2 : List Event,
      (execFrom w c o so (exec w c o so evs) (.signal sig :: evs2)).status = .running →
      (execFrom w c o so (exec w c o so evs) (.signal sig :: evs2)).listener ≠ .notStarted →
      (settle w c o so
        (execFrom w c o so (exec w c o so evs) (.signal sig :: evs2))).cancelled = true) ∧
    (∀ evs1 evs2 : List Event, (exec w c o so evs1).cancelled = true →
      (execFrom w c o so (exec w c o so evs1) evs2).cancelled = true ∧
      ((exec w c o so evs1).runCtx = none →
        (execFrom w c o so (exec w c o so evs1) evs2).runCtx ≠ some false)) := by
  have hinv := inv_exec w c o so evs
  have hsig : sig ∈ (exec w c o so evs).notify := by cases sig <;> assumption
  refine ⟨?_, ?_, ?_⟩
  · unfold step
    split
    · simp only [deliver, hsig, if_true]
      split <;> rfl
    · rfl
  · intro evs2 hr hl
    by_cases hr0 : (exec w c o so evs).status = .running
    · have hst : stored (step w c o so (exec w c o so evs) (.signal sig)) = true := by
        simp only [step, hr0, if_true, deliver, hsig]
        split <;> simp_all [stored]
      have hn : (step w c o so (exec w c o so evs) (.signal sig)).notify ≠ [] := by
        simp only [step, hr0, if_true, deliver, hsig]
        split <;> exact List.ne_nil_of_mem hsig
      have hfin := stored_execFrom w c o so evs2 _ (inv_step w c o so _ (.signal sig) hinv) hn hst
      exact (settle_stored w c o so _ hr hl hfin
        (inv_execFrom w c o so (.signal sig :: evs2) _ hinv).2).1
    · rw [execFrom_of_not_running w c o so _ _ hr0] at hr
      exact absurd hr hr0
  · intro evs1 evs2 hc
    have h1 := inv_exec w c o so evs1
    exact ⟨(cancelled_execFrom w c o so evs2 _ h1 hc).1,
      fun hx => (cancelled_execFrom w c o so evs2 _ h1 hc).2 (by simp [hx])⟩

theorem pending_step (w : World) (c : Cmd) (o : opts) (so : serverOpts) (s : State)
    (e : Event) (sig : Signal) (h : Inv w c o so s) (hp : pending sig s) :
    pending sig (step w c o so s e) := by
  by_cases hr : s.status = .running
  · cases e with
    | main =>
      rw [step_main w c o so s hr]
      have hl : s.listener ≠ .notStarted := by
        intro hl
        simp [pending, hl] at hp
      obtain ⟨hc, hg⟩ := not_line_of_started w c o so s h hl
      obtain ⟨h1, -, -, h4, -, h6, -⟩ := mainStep_frame w c o so s hc
      simp only [pending, h6 hg, h1, h4] at hp ⊢
      exact hp
    | listener =>
      rw [step_listener w c o so s hr]
      obtain ⟨-, -, -, -, h4⟩ := h
      obtain ⟨pc, status, trace, logs, defers, notify, ch, lst, cancelled, cancelCalls,
        runCtx⟩ := s
      cases lst <;> simp_all [pending, listener]
    | signal sig2 =>
      rw [step_signal w c o so s sig2 hr]
      obtain ⟨pc, status, trace, logs, defers, notify, ch, lst, cancelled, cancelCalls,
        runCtx⟩ := s
      by_cases hin : sig2 ∈ notify <;> cases lst <;> cases ch <;>
        simp_all [pending, deliver]
  · rw [step_of_not_running w c o so s e hr]
    exact hp

theorem pending_execFrom (w : World) (c : Cmd) (o : opts) (so : serverOpts) (evs : List Event)
    (s : State) (sig : Signal) (h : Inv w c o so s) (hp : pending sig s) :
    pending sig (execFrom w c o so s evs) := by
  induction evs generalizing s with
  | nil => exact hp
  | cons e evs ih => exact ih _ (inv_step w c o so s e h) (pending_step w c o so s e sig h hp)

theorem handled_step (w : World) (c : Cmd) (o : opts) (so : serverOpts) (s : State)
    (e : Event) (sig : Signal) (h : Inv w c o so s) (hp : handled sig s) :
    handled sig (step w c o so s e) := by
  obtain ⟨hl, hn, hc, hw⟩ := hp
  by_cases hr : s.status = .running
  · cases e with
    | main =>
      rw [step_main w c o so s hr]
      obtain ⟨hx, hg⟩ := not_line_of_started w c o so s h (by simp [hl])
      obtain ⟨-, h2, h3, h4, -, h6, -⟩ := mainStep_frame w c o so s hx
      exact ⟨by rw [h6 hg, hl], by rw [h3, hn], by rw [h2, hc], by rw [h4, hw]⟩
    | listener =>
      rw [step_listener w c o so s hr]
      simp [handled, listener, hl, hn, hc, hw]
    | signal sig2 =>
      rw [step_signal w c o so s sig2 hr]
      unfold deliver
      split
      · split <;> simp [handled, hl, hn, hc, hw]
      · simp [handled, hl, hn, hc, hw]
  · rw [step_of_not_running w c o so s e hr]
    exact ⟨hl, hn, hc, hw⟩

theorem handled_execFrom (w : World) (c : Cmd) (o : opts) (so : serverOpts) (evs : List Event)
    (s : State) (sig : Signal) (h : Inv w c o so s) (hp : handled sig s) :
    handled sig (execFrom w c o so s evs) := by
  induction evs generalizing s with
  | nil => exact hp
  | cons e evs ih => exact ih _ (inv_step w c o so s e h) (handled_step w c o so s e sig h hp)

theorem settle_pending (w : World) (c : Cmd) (o : opts) (so : serverOpts) (s : State)
    (sig : Signal) (hr : s.status = .running) (hb : BridgeInv s) (hp : pending sig s) :
    handled sig (settle w c o so s) := by
  obtain ⟨pc, status, trace, logs, defers, notify, ch, lst, cancelled, cancelCalls, runCtx⟩ := s
  simp only at hr
  subst hr
  obtain ⟨-, -, -, h4⟩ := hb
  cases lst <;>
    simp_all [pending, handled, settle, execFrom, step, listener, warnings_append, warnings_warn]

theorem started_step (w : World) (c : Cmd) (o : opts) (so : serverOpts) (s : State)
    (e : Event) (h : Inv w c o so s) (hl : s.listener ≠ .notStarted) :
    (step w c o so s e).listener ≠ .notStarted := by
  by_cases hr : s.status = .running
  · cases e with
    | main =>
      rw [step_main w c o so s hr]
      obtain ⟨hx, hg⟩ := not_line_of_started w c o so s h hl
      rw [(mainStep_frame w c o so s hx).2.2.2.2.2.1 hg]
      exact hl
    | listener =>
      rw [step_listener w c o so s hr]
      obtain ⟨pc, status, trace, logs, defers, notify, ch, lst, cancelled, cancelCalls,
        runCtx⟩ := s
      cases lst <;> cases ch <;> simp_all [listener]
    | signal sig =>
      rw [step_signal w c o so s sig hr]
      unfold deliver
      split
      · split <;> exact hl
      · exact hl
  · rw [step_of_not_running w c o so s e hr]
    exact hl

theorem started_execFrom (w : World) (c : Cmd) (o : opts) (so : serverOpts) (evs : List Event)
    (s : State) (h : Inv w c o so s) (hl : s.listener ≠ .notStarted) :
    (execFrom w c o so s evs).listener ≠ .notStarted := by
  induction evs generalizing s with
  | nil => exact hl
  | cons e evs ih => exact ih _ (inv_step w c o so s e h) (started_step w c o so s e h hl)

/-- C9. Signals delivered once the listener goroutine waits on an empty channel: the first one,
`sig`, is put in the buffer, whichever of the two signals it is.  Whatever is scheduled after
it (further signals of either kind, steps of either goroutine), `cancel` has been called at
most once and at most one warning has been logged, and no signal ends the process.  As long
as the process runs, once the listener goroutine has run it has logged exactly one warning,
for `sig`, and called `cancel` exactly once, and nothing scheduled later (further signals
included) adds a call of `cancel` or a warning. -/
theorem listener_consumes_first_signal (w : World) (c : Cmd) (o : opts) (so : serverOpts)
    (evs0 : List Event) (sig : Signal) (evs1 : List Event)
    (hl : (exec w c o so evs0).listener = .waiting)
    (hc : (exec w c o so evs0).ch = none) :
    ((exec w c o so evs0).status = .running →
      step w c o so (exec w c o so evs0) (.signal sig) =
        { exec w c o so evs0 with ch := some sig }) ∧
    (execFrom w c o so (exec w c o so evs0) (.signal sig :: evs1)).cancelCalls ≤ 1 ∧
    (warnings (execFrom w c o so (exec w c o so evs0) (.signal sig :: evs1)).logs).length ≤ 1 ∧
    (∀ sig2 : Signal,
      (step w c o so (execFrom w c o so (exec w c o so evs0) (.signal sig :: evs1))
        (.signal sig2)).status =
      (execFrom w c o so (exec w c o so evs0) (.signal sig :: evs1)).status) ∧
    ((execFrom w c o so (exec w c o so evs0) (.signal sig :: evs1)).status = .running →
      ∀ evs2 : List Event,
        handled sig (execFrom w c o so
          (settle w c o so (execFrom w c o so (exec w c o so evs0) (.signal sig :: evs1)))
          evs2)) := by
  have hinv0 := inv_exec w c o so evs0
  have hnot0 := notify_of_started w c o so _ hinv0 (by simp [hl])
  have hsig : sig ∈ (exec w c o so evs0).notify := by rw [hnot0]; cases sig <;> simp
  have hstep : (exec w c o so evs0).status = .running →
      step w c o so (exec w c o so evs0) (.signal sig) =
        { exec w c o so evs0 with ch := some sig } := by
    intro hr
    rw [step_signal w c o so _ sig hr]
    simp [deliver, hsig, hc]
  have hinv1 := inv_execFrom w c o so (.signal sig :: evs1) _ hinv0
  generalize hs1 : execFrom w c o so (exec w c o so evs0) (.signal sig :: evs1) = s1 at hinv1 ⊢
  refine ⟨hstep, ?_, ?_, ?_, ?_⟩
  · obtain ⟨-, -, -, -, h4⟩ := hinv1
    cases hl1 : s1.listener <;> simp_all
  · obtain ⟨-, -, -, -, h4⟩ := hinv1
    cases hl1 : s1.listener <;> simp_all
  · intro sig2
    by_cases hr : s1.status = .running
    · rw [step_signal w c o so s1 sig2 hr]
      have hl1 : s1.listener ≠ .notStarted := by
        rw [← hs1]
        exact started_execFrom w c o so _ _ hinv0 (by simp [hl])
      have hn := notify_of_started w c o so s1 hinv1 hl1
      have : sig2 ∈ s1.notify := by rw [hn]; cases sig2 <;> simp
      simp only [deliver, this, if_true]
      split <;> rfl
    · rw [step_of_not_running w c o so s1 _ hr]
  · intro hr evs2
    have hr0 : (exec w c o so evs0).status = .running := by
      by_contra hne
      rw [← hs1, execFrom_of_not_running w c o so _ _ hne] at hr
      exact hne hr
    have hp0 : pending sig (step w c o so (exec w c o so evs0) (.signal sig)) := by
      rw [hstep hr0]
      simp [pending, hl]
    have hp1 : pending sig s1 := by
      rw [← hs1]
      exact pending_execFrom w c o so evs1 _ sig (inv_step w c o so _ _ hinv0) hp0
    exact handled_execFrom w c o so evs2 _ sig
      (inv_execFrom w c o so _ _ hinv1) (settle_pending w c o so s1 sig hr hinv1.2 hp1)

/-- C8 as amended, on a concrete input: an interrupt after the listener of `start` was
started. -/
theorem signal_after_registration_is_stored_witness :
    Signal.Interrupt ∈
      (exec (demoWorld false false) .start opts0 serverOpts0 (List.replicate 6 .main)).notify ∧
    Signal.SIGTERM ∈
      (exec (demoWorld false false) .start opts0 serverOpts0 (List.replicate 6 .main)).notify ∧
    (step (demoWorld false false) .start opts0 serverOpts0
      (exec (demoWorld false false) .start opts0 serverOpts0 (List.replicate 6 .main))
      (.signal .Interrupt)).status =
    (exec (demoWorld false false) .start opts0 serverOpts0 (List.replicate 6 .main)).status ∧
    (settle (demoWorld false false) .start opts0 serverOpts0
      (execFrom (demoWorld false false) .start opts0 serverOpts0
        (exec (demoWorld false false) .start opts0 serverOpts0 (List.replicate 6 .main))
        (.signal .Interrupt :: moreSignals))).cancelled = true :=
  ⟨by decide, by decide,
    (signal_after_registration_is_stored (demoWorld false false) .start opts0 serverOpts0
      (List.replicate 6 .main) .Interrupt (by decide) (by decide)).1,
    (signal_after_registration_is_stored (demoWorld false false) .start opts0 serverOpts0
      (List.replicate 6 .main) .Interrupt (by decide) (by decide)).2.1 moreSignals rfl
      (by decide)⟩

/-- C9, on a concrete input: an interrupt, then a SIGTERM and a second interrupt, after the
listener of `start` was started. -/
theorem listener_consumes_first_signal_witness :
    (exec (demoWorld false false) .start opts0 serverOpts0 (List.replicate 6 .main)).listener =
      .waiting ∧
    (exec (demoWorld false false) .start opts0 serverOpts0 (List.replicate 6 .main)).ch = none ∧
    (execFrom (demoWorld false false) .start opts0 serverOpts0
      (exec (demoWorld false false) .start opts0 serverOpts0 (List.replicate 6 .main))
      (.signal .Interrupt :: moreSignals)).cancelCalls ≤ 1 ∧
    handled .Interrupt
      (execFrom (demoWorld false false) .start opts0 serverOpts0
        (settle (demoWorld false false) .start opts0 serverOpts0
          (execFrom (demoWorld false false) .start opts0 serverOpts0
            (exec (demoWorld false false) .start opts0 serverOpts0 (List.replicate 6 .main))
            (.signal .Interrupt :: moreSignals)))
        [.signal .SIGTERM, .listener, .signal .Interrupt]) :=
  ⟨rfl, rfl,
    (listener_consumes_first_signal (demoWorld false false) .start opts0 serverOpts0
      (List.replicate 6 .main) .Interrupt moreSignals rfl rfl).2.1,
    (listener_consumes_first_signal (demoWorld false false) .start opts0 serverOpts0
      (List.replicate 6 .main) .Interrupt moreSignals rfl rfl).2.2.2.2 rfl _⟩

/-! ## Progress of the main goroutine -/

theorem pc_listener (s : State) : (listener s).pc = s.pc := by
  unfold listener
  split
  · split <;> rfl
  all_goals rfl

theorem pc_deliver (sig : Signal) (s : State) : (deliver sig s).pc = s.pc := by
  unfold deliver
  split
  · split <;> rfl
  · rfl

theorem index_mainStep (w : World) (c : Cmd) (o : opts) (so : serverOpts) (s : State)
    (h : Inv w c o so s) (hr : (mainStep w c o so s).status = .running) :
    pcIndex c (mainStep w c o so s).pc = pcIndex c s.pc + 1 := by
  obtain ⟨hm, -⟩ := h
  obtain ⟨pc, status, trace, logs, defers, notify, ch, lst, cancelled, cancelCalls, runCtx⟩ := s
  cases pc <;> cases c <;> simp [MainInv, view, At] at hm <;>
    simp only [mainStep, Execute, newServerStart, newServerSeed, call, returnE, main] at hr ⊢
  all_goals first
    | rfl
    | (split at hr <;> simp_all [logFatal, osExit, pcIndex])

theorem index_step (w : World) (c : Cmd) (o : opts) (so : serverOpts) (s : State) (e : Event)
    (h : Inv w c o so s) (hr : (step w c o so s e).status = .running) :
    pcIndex c (step w c o so s e).pc = pcIndex c s.pc + [e].count .main := by
  by_cases hs : s.status = .running
  · cases e with
    | main =>
      rw [step_main w c o so s hs] at hr ⊢
      exact index_mainStep w c o so s h hr
    | listener =>
      rw [step_listener w c o so s hs, pc_listener]
      rfl
    | signal sig =>
      rw [step_signal w c o so s sig hs, pc_deliver]
      rfl
  · rw [step_of_not_running w c o so s e hs] at hr
    exact absurd hr hs

theorem index_execFrom (w : World) (c : Cmd) (o : opts) (so : serverOpts) (evs : List Event)
    (s : State) (h : Inv w c o so s) (hr : (execFrom w c o so s evs).status = .running) :
    pcIndex c (execFrom w c o so s evs).pc = pcIndex c s.pc + evs.count .main := by
  induction evs generalizing s with
  | nil => rfl
  | cons e evs ih =>
    have hr1 : (step w c o so s e).status = .running := by
      by_contra hne
      have : execFrom w c o so s (e :: evs) = step w c o so s e :=
        execFrom_of_not_running w c o so evs _ hne
      rw [this] at hr
      exact hne hr
    have h1 := ih _ (inv_step w c o so s e h) hr
    have h2 := index_step w c o so s e h hr1
    show pcIndex c (execFrom w c o so (step w c o so s e) evs).pc = _
    rw [h1, h2]
    simp only [List.count_cons, List.count_nil]
    omega

theorem index_exec (w : World) (c : Cmd) (o : opts) (so : serverOpts) (evs : List Event)
    (hr : (exec w c o so evs).status = .running) :
    pcIndex c (exec w c o so evs).pc = evs.count .main := by
  have := index_execFrom w c o so evs (init c) (inv_init w c o so) hr
  rw [show exec w c o so evs = execFrom w c o so (init c) evs from rfl, this]
  cases c <;> simp [init, pcIndex]

theorem index_config_error (w : World) (c : Cmd) (o : opts) (so : serverOpts) (e : Err)
    (hconf : w.configNewServer o.configPath so.envPrefix = .error e) (s : State)
    (h : Inv w c o so s) : pcIndex c s.pc = 0 := by
  obtain ⟨hm, -⟩ := h
  obtain ⟨pc, status, trace, logs, defers, notify, ch, lst, cancelled, cancelCalls, runCtx⟩ := s
  cases pc <;> simp [MainInv, view, At, NoExit, hconf] at hm <;> rfl

theorem index_start_migFail (w : World) (o : opts) (so : serverOpts) (conf : Config) (e : Err)
    (hconf : w.configNewServer o.configPath so.envPrefix = .ok conf)
    (hmig : w.Migrate o.migrationDir (w.DatabaseUrl conf.DB) true = some e)
    (s : State) (h : Inv w .start o so s) : pcIndex .start s.pc ≤ 7 := by
  obtain ⟨hm, -⟩ := h
  obtain ⟨pc, status, trace, logs, defers, notify, ch, lst, cancelled, cancelCalls, runCtx⟩ := s
  cases pc <;> simp [MainInv, view, At, NoExit, hconf, hmig] at hm <;>
    first
      | (simp [pcIndex]; done)
      | (simp [← hm.1, hmig] at hm)

theorem index_start_ok (w : World) (o : opts) (so : serverOpts) (conf : Config)
    (hconf : w.configNewServer o.configPath so.envPrefix = .ok conf)
    (hmig : w.Migrate o.migrationDir (w.DatabaseUrl conf.DB) true = none)
    (s : State) (h : Inv w .start o so s) :
    pcIndex .start s.pc ≤ 13 ∧
    (12 ≤ pcIndex .start s.pc → (startCalls w o so conf).take 11 <+: s.trace) ∧
    (12 ≤ pcIndex .start s.pc → s.runCtx.isSome = true) ∧
    (13 ≤ pcIndex .start s.pc → s.trace = startCalls w o so conf) := by
  rcases shape_start_ok w o so conf hconf hmig s h with ⟨k, hk, ht, hi, hne, -⟩ | ⟨ht, hx, b, hb, -⟩
  · obtain ⟨hm, -⟩ := h
    obtain ⟨pc, status, trace, logs, defers, notify, ch, lst, cancelled, cancelCalls,
      runCtx⟩ := s
    cases pc <;> simp [MainInv, view, At] at hm <;> simp [pcIndex] <;>
      first
        | (simp at hne; done)
        | (simp [hconf] at hm; simp [hm])
  · rw [hb, ht]
    simp [pcIndex, List.take_prefix, hx]

theorem index_seed_ok (w : World) (o : opts) (so : serverOpts) (conf : Config)
    (hconf : w.configNewServer o.configPath so.envPrefix = .ok conf)
    (s : State) (h : Inv w .seed o so s) :
    pcIndex .seed s.pc ≤ 11 ∧
    (10 ≤ pcIndex .seed s.pc → (seedCalls w o so conf).take 10 <+: s.trace) ∧
    (10 ≤ pcIndex .seed s.pc → s.runCtx.isSome = true) ∧
    (11 ≤ pcIndex .seed s.pc → s.trace = seedCalls w o so conf) := by
  rcases shape_seed_ok w o so conf hconf s h with ⟨k, hk, ht, hi, hne, -⟩ | ⟨ht, hx, b, hb, -⟩
  · obtain ⟨hm, -⟩ := h
    obtain ⟨pc, status, trace, logs, defers, notify, ch, lst, cancelled, cancelCalls,
      runCtx⟩ := s
    cases pc <;> simp [MainInv, view, At] at hm <;> simp [pcIndex] <;>
      first
        | (simp at hne; done)
        | (simp [hconf] at hm; simp [hm])
  · rw [hb, ht]
    simp [pcIndex, List.take_prefix, hx]

theorem total_mainStep (w : World) (c : Cmd) (o : opts) (so : serverOpts) (s : State)
    (h : Inv w c o so s) (hr : s.status = .running) :
    pcIndex c (mainStep w c o so s).pc + exitBit (mainStep w c o so s).status =
      pcIndex c s.pc + 1 := by
  obtain ⟨hm, -⟩ := h
  obtain ⟨pc, status, trace, logs, defers, notify, ch, lst, cancelled, cancelCalls, runCtx⟩ := s
  simp only at hr
  subst hr
  cases pc <;> cases c <;> simp [MainInv, view, At] at hm <;>
    simp only [mainStep, Execute, newServerStart, newServerSeed, call, returnE, main]
  all_goals first
    | rfl
    | (split <;> simp [logFatal, osExit, pcIndex, exitBit])

theorem total_step (w : World) (c : Cmd) (o : opts) (so : serverOpts) (s : State) (e : Event)
    (h : Inv w c o so s) :
    pcIndex c (step w c o so s e).pc + exitBit (step w c o so s e).status ≤
      pcIndex c s.pc + exitBit s.status + [e].count .main := by
  by_cases hs : s.status = .running
  · cases e with
    | main =>
      rw [step_main w c o so s hs, total_mainStep w c o so s h hs, hs]
      simp [exitBit]
    | listener =>
      rw [step_listener w c o so s hs, pc_listener, status_listener]
      simp
    | signal sig =>
      rw [step_signal w c o so s sig hs, pc_deliver]
      have : exitBit (deliver sig s).status = 0 := by
        unfold deliver
        split
        · split <;> simp [hs, exitBit]
        · simp [exitBit]
      rw [this]
      simp
  · rw [step_of_not_running w c o so s e hs]
    simp

theorem total_execFrom (w : World) (c : Cmd) (o : opts) (so : serverOpts) (evs : List Event)
    (s : State) (h : Inv w c o so s) :
    pcIndex c (execFrom w c o so s evs).pc + exitBit (execFrom w c o so s evs).status ≤
      pcIndex c s.pc + exitBit s.status + evs.count .main := by
  induction evs generalizing s with
  | nil => simp [execFrom]
  | cons e evs ih =>
    have h1 := ih _ (inv_step w c o so s e h)
    have h2 := total_step w c o so s e h
    show pcIndex c (execFrom w c o so (step w c o so s e) evs).pc +
      exitBit (execFrom w c o so (step w c o so s e) evs).status ≤ _
    simp only [List.count_cons, List.count_nil] at h2 ⊢
    omega

theorem total_exec (w : World) (c : Cmd) (o : opts) (so : serverOpts) (evs : List Event) :
    pcIndex c (exec w c o so evs).pc + exitBit (exec w c o so evs).status ≤
      evs.count .main := by
  have := total_execFrom w c o so evs (init c) (inv_init w c o so)
  have h0 : pcIndex c (init c).pc + exitBit (init c).status = 0 := by
    cases c <;> simp [init, pcIndex, exitBit]
  rw [h0] at this
  simpa [exec] using this

theorem reached_start_ok (w : World) (o : opts) (so : serverOpts) (conf : Config)
    (hconf : w.configNewServer o.configPath so.envPrefix = .ok conf)
    (hmig : w.Migrate o.migrationDir (w.DatabaseUrl conf.DB) true = none)
    (evs : List Event) (hk : ∀ sig, (exec w .start o so evs).status ≠ .killed sig) :
    (12 ≤ evs.count .main → (startCalls w o so conf).take 11 <+: (exec w .start o so evs).trace ∧
      (exec w .start o so evs).runCtx.isSome = true) ∧
    (evs.count .main = 12 → (exec w .start o so evs).trace = (startCalls w o so conf).take 11) ∧
    (13 ≤ evs.count .main → (exec w .start o so evs).trace = startCalls w o so conf) ∧
    (14 ≤ evs.count .main → ∃ b,
      (exec w .start o so evs).pc = .L11 (w.Run (startServer w conf) b) ∧
      (exec w .start o so evs).status =
        .exited (if w.Run (startServer w conf) b = none then 0 else 1)) := by
  have hinv := inv_exec w .start o so evs
  cases hs : (exec w .start o so evs).status with
  | running =>
    have hidx := index_exec w .start o so evs hs
    obtain ⟨h0, h1, h2, h3⟩ := index_start_ok w o so conf hconf hmig _ hinv
    rw [hidx] at h0 h1 h2 h3
    refine ⟨fun h => ⟨h1 h, h2 h⟩, fun h => ?_, h3, fun h => by omega⟩
    rcases shape_start_ok w o so conf hconf hmig _ hinv with
      ⟨k, hk1, ht, -, -, -⟩ | ⟨-, -, b, hb, -⟩
    · have hp := h1 (by omega)
      rw [ht] at hp ⊢
      have hl := hp.length_le
      simp [startCalls] at hl
      have : k = 11 := by omega
      rw [this]
    · rw [hb] at hidx
      simp [pcIndex] at hidx
      omega
  | exited n =>
    rcases shape_start_ok w o so conf hconf hmig _ hinv with
      ⟨-, -, -, -, -, hne⟩ | ⟨ht, hx, b, hb, hn⟩
    · exact absurd hs (hne n)
    · refine ⟨fun _ => ⟨by rw [ht]; exact List.take_prefix _ _, hx⟩, fun h => ?_, fun _ => ht,
        fun _ => ⟨b, hb, by rw [hn n hs]⟩⟩
      have := total_exec w .start o so evs
      rw [hb, hs] at this
      simp [pcIndex, exitBit] at this
      omega
  | killed sig => exact absurd hs (hk sig)

theorem reached_seed_ok (w : World) (o : opts) (so : serverOpts) (conf : Config)
    (hconf : w.configNewServer o.configPath so.envPrefix = .ok conf)
    (evs : List Event) (hk : ∀ sig, (exec w .seed o so evs).status ≠ .killed sig) :
    (10 ≤ evs.count .main → (seedCalls w o so conf).take 10 <+: (exec w .seed o so evs).trace ∧
      (exec w .seed o so evs).runCtx.isSome = true) ∧
    (11 ≤ evs.count .main → (exec w .seed o so evs).trace = seedCalls w o so conf) ∧
    (12 ≤ evs.count .main → ∃ b,
      (exec w .seed o so evs).pc = .L11 (w.Seed (seedService w conf) b) ∧
      (exec w .seed o so evs).status =
        .exited (if w.Seed (seedService w conf) b = none then 0 else 1)) := by
  have hinv := inv_exec w .seed o so evs
  cases hs : (exec w .seed o so evs).status with
  | running =>
    have hidx := index_exec w .seed o so evs hs
    obtain ⟨h0, h1, h2, h3⟩ := index_seed_ok w o so conf hconf _ hinv
    rw [hidx] at h0 h1 h2 h3
    exact ⟨fun h => ⟨h1 h, h2 h⟩, h3, fun h => by omega⟩
  | exited n =>
    rcases shape_seed_ok w o so conf hconf _ hinv with
      ⟨-, -, -, -, -, hne⟩ | ⟨ht, hx, b, hb, hn⟩
    · exact absurd hs (hne n)
    · exact ⟨fun _ => ⟨by rw [ht]; exact List.take_prefix _ _, hx⟩, fun _ => ht,
        fun _ => ⟨b, hb, by rw [hn n hs]⟩⟩
  | killed sig => exact absurd hs (hk sig)

theorem reached_failure (w : World) (o : opts) (so : serverOpts)
    (hf : startFails w o so = true)
    (evs : List Event) (hk : ∀ sig, (exec w .start o so evs).status ≠ .killed sig)
    (hn : 8 ≤ evs.count .main) :
    (exec w .start o so evs).trace = startSequence w o so ∧
    (exec w .start o so evs).status = .exited 1 := by
  have hinv := inv_exec w .start o so evs
  cases hconf : w.configNewServer o.configPath so.envPrefix with
  | error e =>
    have hseq : startSequence w o so = [.configNewServer o.configPath so.envPrefix] := by
      simp [startSequence, hconf]
    rcases shape_config_error w .start o so e hconf _ hinv with ⟨-, hs⟩ | ⟨ht, hs⟩
    · cases hst : (exec w .start o so evs).status with
      | running =>
        have := index_exec w .start o so evs hst
        rw [index_config_error w .start o so e hconf _ hinv] at this
        omega
      | exited n => exact absurd hst (hs n)
      | killed sig => exact absurd hst (hk sig)
    · exact ⟨by rw [ht, hseq], hs⟩
  | ok conf =>
    cases hmig : w.Migrate o.migrationDir (w.DatabaseUrl conf.DB) true with
    | none => simp [startFails, hconf, hmig] at hf
    | some e =>
      have hseq : startSequence w o so = (startCalls w o so conf).take 7 := by
        simp [startSequence, hconf, hmig, startCalls]
      rcases shape_start_migFail w o so conf e hconf hmig _ hinv with ⟨k, -, -, hs⟩ | ⟨ht, hs⟩
      · cases hst : (exec w .start o so evs).status with
        | running =>
          have := index_exec w .start o so evs hst
          have := index_start_migFail w o so conf e hconf hmig _ hinv
          omega
        | exited n => exact absurd hst (hs n)
        | killed sig => exact absurd hst (hk sig)
      · exact ⟨by rw [ht, hseq], hs⟩

/-! ## The commands in every schedule -/

/-- C3. For a configuration that loads and a migration that succeeds, `start` calls `Run`: in
every schedule in which no signal ended the process, once the main goroutine has taken twelve
steps the trace holds exactly one `Run`, on the server that `apiserver.NewServer` returned for
the loaded configuration and a clients bundle whose database handle and cache handle are both
present, each built by exactly one call of its constructor on the descriptor of that
configuration; this holds whatever the signals and the listener goroutine did in between, a
cancelled context included.  In every schedule each of these calls is made at most once and
with these arguments. -/
theorem start_runs_server_once (w : World) (o : opts) (so : serverOpts) (conf : Config)
    (hconf : w.configNewServer o.configPath so.envPrefix = .ok conf)
    (hmig : w.Migrate o.migrationDir (w.DatabaseUrl conf.DB) true = none) :
    (∀ n, 12 ≤ n →
      invocations .Run (runMain w .start o so n) = 1 ∧
      invocations .apiserverNewServer (runMain w .start o so n) = 1 ∧
      invocations .NewSQLx (runMain w .start o so n) = 1 ∧
      invocations .redisNew (runMain w .start o so n) = 1 ∧
      .Run (w.apiserverNewServer
          { Config := conf
            Clients := { DB := some (w.NewSQLx conf.DB),
                         Redis := some (w.redisNew conf.Redis) } }) ∈
        (runMain w .start o so n).trace) ∧
    (∀ evs : List Event,
      invocations .Run (exec w .start o so evs) ≤ 1 ∧
      invocations .apiserverNewServer (exec w .start o so evs) ≤ 1 ∧
      invocations .NewSQLx (exec w .start o so evs) ≤ 1 ∧
      invocations .redisNew (exec w .start o so evs) ≤ 1 ∧
      (∀ srv, .Run srv ∈ (exec w .start o so evs).trace →
        srv = w.apiserverNewServer
          { Config := conf
            Clients := { DB := some (w.NewSQLx conf.DB),
                         Redis := some (w.redisNew conf.Redis) } }) ∧
      (∀ so2, .apiserverNewServer so2 ∈ (exec w .start o so evs).trace →
        so2 = { Config := conf
                Clients := { DB := some (w.NewSQLx conf.DB),
                             Redis := some (w.redisNew conf.Redis) } }) ∧
      (∀ d, .NewSQLx d ∈ (exec w .start o so evs).trace → d = conf.DB) ∧
      (∀ r, .redisNew r ∈ (exec w .start o so evs).trace → r = conf.Redis)) ∧
    (∀ evs : List Event, (∀ sig, (exec w .start o so evs).status ≠ .killed sig) →
      12 ≤ evs.count .main →
      invocations .Run (exec w .start o so evs) = 1 ∧
      invocations .apiserverNewServer (exec w .start o so evs) = 1 ∧
      invocations .NewSQLx (exec w .start o so evs) = 1 ∧
      invocations .redisNew (exec w .start o so evs) = 1 ∧
      .Run (w.apiserverNewServer
          { Config := conf
            Clients := { DB := some (w.NewSQLx conf.DB),
                         Redis := some (w.redisNew conf.Redis) } }) ∈
        (exec w .start o so evs).trace ∧
      (exec w .start o so evs).runCtx.isSome = true) := by
  refine ⟨?_, ?_, ?_⟩
  · intro n hn
    obtain ⟨h1, h2, -⟩ := runMain_start_ge_12 w o so conf hconf hmig n hn
    exact ⟨Nat.le_antisymm (invocations_le .Run _ _ h2)
        (invocations_ge .Run _ _ h1),
      Nat.le_antisymm (invocations_le .apiserverNewServer _ _ h2)
        (invocations_ge .apiserverNewServer _ _ h1),
      Nat.le_antisymm (invocations_le .NewSQLx _ _ h2)
        (invocations_ge .NewSQLx _ _ h1),
      Nat.le_antisymm (invocations_le .redisNew _ _ h2)
        (invocations_ge .redisNew _ _ h1),
      h1.subset (by simp [startCalls, startServer, startServerOpts])⟩
  · intro evs
    have hp := prefix_start_ok w o so conf hconf hmig _ (inv_exec w .start o so evs)
    refine ⟨invocations_le _ _ _ hp, invocations_le _ _ _ hp,
      invocations_le _ _ _ hp, invocations_le _ _ _ hp, ?_, ?_, ?_, ?_⟩
    · intro srv h
      have := hp.subset h
      simpa [startCalls, startServer, startServerOpts] using this
    · intro so2 h
      have := hp.subset h
      simpa [startCalls, startServer, startServerOpts] using this
    · intro d h
      have := hp.subset h
      simpa [startCalls] using this
    · intro r h
      have := hp.subset h
      simpa [startCalls] using this
  · intro evs hk hn
    obtain ⟨h1, hx⟩ := (reached_start_ok w o so conf hconf hmig evs hk).1 hn
    have h2 := prefix_start_ok w o so conf hconf hmig _ (inv_exec w .start o so evs)
    exact ⟨Nat.le_antisymm (invocations_le .Run _ _ h2)
        (invocations_ge .Run _ _ h1),
      Nat.le_antisymm (invocations_le .apiserverNewServer _ _ h2)
        (invocations_ge .apiserverNewServer _ _ h1),
      Nat.le_antisymm (invocations_le .NewSQLx _ _ h2)
        (invocations_ge .NewSQLx _ _ h1),
      Nat.le_antisymm (invocations_le .redisNew _ _ h2)
        (invocations_ge .redisNew _ _ h1),
      h1.subset (by simp [startCalls, startServer, startServerOpts]), hx⟩

/-- C3, on a concrete input: a run of `start` in which nothing fails and the context is
cancelled before line 77 is reached; `Run` is called all the same, once. -/
theorem start_runs_server_once_witness :
    (demoWorld false false).configNewServer opts0.configPath serverOpts0.envPrefix =
      .ok conf0 ∧
    (demoWorld false false).Migrate opts0.migrationDir
      ((demoWorld false false).DatabaseUrl conf0.DB) true = none ∧
    invocations .Run (runMain (demoWorld false false) .start opts0 serverOpts0 12) = 1 ∧
    invocations .Run (exec (demoWorld false false) .start opts0 serverOpts0
      (List.replicate 12 .main ++ [.signal .Interrupt, .listener, .listener, .listener, .main,
        .main])) ≤ 1 ∧
    (exec (demoWorld false false) .start opts0 serverOpts0 cancelledBeforeRun).runCtx =
      some true ∧
    invocations .Run (exec (demoWorld false false) .start opts0 serverOpts0
      cancelledBeforeRun) = 1 :=
  ⟨rfl, rfl,
    ((start_runs_server_once (demoWorld false false) opts0 serverOpts0 conf0 rfl rfl).1 12
      (by decide)).1,
    ((start_runs_server_once (demoWorld false false) opts0 serverOpts0 conf0 rfl rfl).2.1 _).1,
    rfl,
    ((start_runs_server_once (demoWorld false false) opts0 serverOpts0 conf0 rfl rfl).2.2
      cancelledBeforeRun (fun sig h => by cases sig <;> exact absurd h (by decide))
      (by decide)).1⟩

theorem pc_step_L11 (w : World) (c : Cmd) (o : opts) (so : serverOpts) (s : State) (e : Event)
    (err : Option Err) (hpc : s.pc = .L11 err) : (step w c o so s e).pc = .L11 err := by
  by_cases hs : s.status = .running
  · cases e with
    | main =>
      rw [step_main w c o so s hs]
      cases err <;> simp [mainStep, hpc, main, logFatal, osExit]
    | listener => rw [step_listener w c o so s hs, pc_listener, hpc]
    | signal sig => rw [step_signal w c o so s sig hs, pc_deliver, hpc]
  · rw [step_of_not_running w c o so s e hs, hpc]

/-- C4. When the set-up of `start` (resp. `seed`) succeeds, the error `Execute` hands to
`main` is the value `Run` (resp. `Seed`) returned, on the server (resp. service) the command
built: in every schedule, the step in which `Run` returns hands to `main` exactly the value
`Run` gives for the state of the context at that moment, no later step changes it, and the
exit status is 0 exactly when that value is no error: the next step of `main` exits with
status 0 for no error and 1 for an error.  In every schedule in which no signal ended the
process it has exited this way once the main goroutine has taken fourteen steps; without
signals the value is the one `Run` gives for a context that is not cancelled. -/
theorem command_result_is_run_error (w : World) (c : Cmd) (o : opts) (so : serverOpts)
    (conf : Config)
    (hconf : w.configNewServer o.configPath so.envPrefix = .ok conf)
    (hmig : c = .start → w.Migrate o.migrationDir (w.DatabaseUrl conf.DB) true = none) :
    (∀ (evs : List Event) (err : Option Err), (exec w c o so evs).pc = .L11 err →
      (∃ b, err =
        match c with
        | .start =>
          w.Run (w.apiserverNewServer
            { Config := conf
              Clients := { DB := some (w.NewSQLx conf.DB),
                           Redis := some (w.redisNew conf.Redis) } }) b
        | .seed =>
          w.Seed (w.NewService (w.NewStore (some (w.NewSQLx conf.DB)) none)
            (some (w.NewSQLx conf.DB))) b) ∧
      (∀ n, (exec w c o so evs).status = .exited n → (n = 0 ↔ err = none)) ∧
      ((exec w c o so evs).status = .running →
        (step w c o so (exec w c o so evs) .main).status =
          .exited (if err = none then 0 else 1))) ∧
    (∀ n, 14 ≤ n → ∃ err code, (runMain w c o so n).pc = .L11 err ∧
      (runMain w c o so n).status = .exited code ∧ (code = 0 ↔ err = none)) ∧
    (∀ evs : List Event, (exec w c o so evs).status = .running →
      (∀ server, (exec w c o so evs).pc = .L77r server →
        server = w.apiserverNewServer
          { Config := conf
            Clients := { DB := some (w.NewSQLx conf.DB),
                         Redis := some (w.redisNew conf.Redis) } } ∧
        (step w c o so (exec w c o so evs) .main).pc =
          .L11 (w.Run server (exec w c o so evs).cancelled)) ∧
      (∀ catalogSvc, (exec w c o so evs).pc = .L111r catalogSvc →
        catalogSvc = w.NewService (w.NewStore (some (w.NewSQLx conf.DB)) none)
          (some (w.NewSQLx conf.DB)) ∧
        (step w c o so (exec w c o so evs) .main).pc =
          .L11 (w.Seed catalogSvc (exec w c o so evs).cancelled))) ∧
    (∀ (evs : List Event) (err : Option Err) (e : Event),
      (exec w c o so evs).pc = .L11 err → (step w c o so (exec w c o so evs) e).pc = .L11 err) ∧
    (∀ n, 14 ≤ n →
      (runMain w c o so n).pc = .L11
        (match c with
          | .start =>
            w.Run (w.apiserverNewServer
              { Config := conf
                Clients := { DB := some (w.NewSQLx conf.DB),
                             Redis := some (w.redisNew conf.Redis) } }) false
          | .seed =>
            w.Seed (w.NewService (w.NewStore (some (w.NewSQLx conf.DB)) none)
              (some (w.NewSQLx conf.DB))) false) ∧
      (runMain w c o so n).status = .exited
        (if (match c with
          | .start =>
            w.Run (w.apiserverNewServer
              { Config := conf
                Clients := { DB := some (w.NewSQLx conf.DB),
                             Redis := some (w.redisNew conf.Redis) } }) false
          | .seed =>
            w.Seed (w.NewService (w.NewStore (some (w.NewSQLx conf.DB)) none)
              (some (w.NewSQLx conf.DB))) false) = none then 0 else 1)) ∧
    (∀ evs : List Event, (∀ sig, (exec w c o so evs).status ≠ .killed sig) →
      14 ≤ evs.count .main →
      ∃ err, (exec w c o so evs).pc = .L11 err ∧
        (exec w c o so evs).status = .exited (if err = none then 0 else 1)) := by
  refine ⟨?_, ?_, ?_, ?_, ?_, ?_⟩
  · intro evs err hpc
    have hinv := inv_exec w c o so evs
    refine ⟨?_, ?_, ?_⟩
    · cases c
      · rcases shape_start_ok w o so conf hconf (hmig rfl) _ hinv with
          ⟨-, -, -, -, hne, -⟩ | ⟨-, -, b, hb, -⟩
        · exact absurd hpc (hne err)
        · rw [hpc] at hb
          exact ⟨b, PC.L11.inj hb⟩
      · rcases shape_seed_ok w o so conf hconf _ hinv with
          ⟨-, -, -, -, hne, -⟩ | ⟨-, -, b, hb, -⟩
        · exact absurd hpc (hne err)
        · rw [hpc] at hb
          exact ⟨b, PC.L11.inj hb⟩
    · intro n hn
      have key : n = if err = none then 0 else 1 := by
        cases c
        · rcases shape_start_ok w o so conf hconf (hmig rfl) _ hinv with
            ⟨-, -, -, -, hne, -⟩ | ⟨-, -, b, hb, hx⟩
          · exact absurd hpc (hne err)
          · rw [hpc] at hb
            rw [PC.L11.inj hb]
            exact hx n hn
        · rcases shape_seed_ok w o so conf hconf _ hinv with
            ⟨-, -, -, -, hne, -⟩ | ⟨-, -, b, hb, hx⟩
          · exact absurd hpc (hne err)
          · rw [hpc] at hb
            rw [PC.L11.inj hb]
            exact hx n hn
      cases err <;> simp_all
    · intro hr
      cases err <;> simp [step, hr, mainStep, hpc, main, logFatal, osExit]
  · intro n hn
    cases c
    · obtain ⟨h1, -, h3, -⟩ := runMain_start_14 w o so conf hconf (hmig rfl) n hn
      refine ⟨_, _, h3, h1, ?_⟩
      cases w.Run (startServer w conf) false <;> simp
    · obtain ⟨h1, -, h3, -⟩ := runMain_seed_12 w o so conf hconf n (by omega)
      refine ⟨_, _, h3, h1, ?_⟩
      cases w.Seed (seedService w conf) false <;> simp
  · intro evs hr
    obtain ⟨hm, -⟩ := inv_exec w c o so evs
    rw [step_main w c o so _ hr]
    generalize exec w c o so evs = s at hm hr ⊢
    obtain ⟨pc, status, trace, logs, defers, notify, ch, lst, cancelled, cancelCalls,
      runCtx⟩ := s
    constructor
    · intro server hpc
      simp only at hpc
      subst hpc
      simp only [MainInv, view] at hm
      obtain ⟨rfl, conf2, hc2, -, rfl, -⟩ := hm
      rw [hconf] at hc2
      cases hc2
      exact ⟨rfl, rfl⟩
    · intro catalogSvc hpc
      simp only at hpc
      subst hpc
      simp only [MainInv, view] at hm
      obtain ⟨rfl, conf2, hc2, rfl, -⟩ := hm
      rw [hconf] at hc2
      cases hc2
      exact ⟨rfl, rfl⟩
  · intro evs err e hpc
    exact pc_step_L11 w c o so _ e err hpc
  · intro n hn
    cases c
    · obtain ⟨h1, -, h3, -⟩ := runMain_start_14 w o so conf hconf (hmig rfl) n hn
      exact ⟨h3, h1⟩
    · obtain ⟨h1, -, h3, -⟩ := runMain_seed_12 w o so conf hconf n (by omega)
      exact ⟨h3, h1⟩
  · intro evs hk hn
    cases c
    · obtain ⟨b, h1, h2⟩ := (reached_start_ok w o so conf hconf (hmig rfl) evs hk).2.2.2 hn
      exact ⟨_, h1, h2⟩
    · obtain ⟨b, h1, h2⟩ := (reached_seed_ok w o so conf hconf evs hk).2.2 (by omega)
      exact ⟨_, h1, h2⟩

/-- C4, on a concrete input: `start` whose `Run` returns no error after a SIGTERM has
cancelled the context exits with status 0; when `Run` returns an error on a context that is
not cancelled, that error is what `main` receives, and the process exits with status 1. -/
theorem command_result_is_run_error_witness :
    (demoWorld false false).configNewServer opts0.configPath serverOpts0.envPrefix =
      .ok conf0 ∧
    (exec (demoWorld false false) .start opts0 serverOpts0 stopAfterStart).pc = .L11 none ∧
    (exec (demoWorld false false) .start opts0 serverOpts0 stopAfterStart).status = .exited 0 ∧
    ((0 : Nat) = 0 ↔ (none : Option Err) = none) ∧
    (step (demoWorld false false) .start opts0 serverOpts0
      (exec (demoWorld false false) .start opts0 serverOpts0 (List.replicate 12 .main))
      .main).pc = .L11 (some "listen failed") ∧
    (runMain (demoWorld false false) .start opts0 serverOpts0 14).status = .exited 1 :=
  ⟨rfl, rfl, rfl,
    ((command_result_is_run_error (demoWorld false false) .start opts0 serverOpts0 conf0 rfl
      (fun _ => rfl)).1 stopAfterStart none rfl).2.1 0 rfl,
    (((command_result_is_run_error (demoWorld false false) .start opts0 serverOpts0 conf0 rfl
      (fun _ => rfl)).2.2.1 (List.replicate 12 .main) rfl).1 _ rfl).2,
    ((command_result_is_run_error (demoWorld false false) .start opts0 serverOpts0 conf0 rfl
      (fun _ => rfl)).2.2.2.2.1 14 (by decide)).2⟩

/-- C6. The calls of `start` follow the order of the specification: in every schedule the
trace is a prefix of the sequence load configuration, initialise logging, create the context
and start the listener, run the migration, construct the database client, the cache client and
the server, run the server, followed only by the logging teardown; when a step fails the trace
never goes past it.  In every schedule in which no signal ended the process, whatever the
signals and the listener goroutine did, the trace is exactly that sequence when the main
goroutine has taken twelve steps, and afterwards only the teardown is added, when no step
failed. -/
theorem start_steps_in_order (w : World) (o : opts) (so : serverOpts) :
    (∀ evs : List Event,
      (exec w .start o so evs).trace <+: startSequence w o so ++ [.logFn]) ∧
    (startFails w o so = true →
      ∀ evs : List Event, (exec w .start o so evs).trace <+: startSequence w o so) ∧
    (runMain w .start o so 12).trace = startSequence w o so ∧
    (∀ n, 13 ≤ n →
      (runMain w .start o so n).trace =
        startSequence w o so ++ (if startFails w o so then [] else [.logFn])) ∧
    (∀ evs : List Event, (∀ sig, (exec w .start o so evs).status ≠ .killed sig) →
      (12 ≤ evs.count .main → startSequence w o so <+: (exec w .start o so evs).trace) ∧
      (evs.count .main = 12 → (exec w .start o so evs).trace = startSequence w o so) ∧
      (13 ≤ evs.count .main →
        (exec w .start o so evs).trace =
          startSequence w o so ++ (if startFails w o so then [] else [.logFn]))) := by
  have hold : (∀ evs : List Event,
      (exec w .start o so evs).trace <+: startSequence w o so ++ [.logFn]) ∧
    (startFails w o so = true →
      ∀ evs : List Event, (exec w .start o so evs).trace <+: startSequence w o so) ∧
    (runMain w .start o so 12).trace = startSequence w o so ∧
    (∀ n, 13 ≤ n →
      (runMain w .start o so n).trace =
        startSequence w o so ++ (if startFails w o so then [] else [.logFn])) := by
    cases hconf : w.configNewServer o.configPath so.envPrefix with
    | error e =>
      have hseq : startSequence w o so = [.configNewServer o.configPath so.envPrefix] := by
        simp [startSequence, hconf]
      have hf : startFails w o so = true := by simp [startFails, hconf]
      have hp := fun evs =>
        prefix_config_error w .start o so e hconf _ (inv_exec w .start o so evs)
      rw [hseq, hf]
      refine ⟨fun evs => (hp evs).trans (List.prefix_append _ _), fun _ => hp, ?_, ?_⟩
      · exact (runMain_config_error w .start o so e hconf 12 (by decide)).2
      · intro n hn
        simpa using (runMain_config_error w .start o so e hconf n (by omega)).2
    | ok conf =>
      cases hmig : w.Migrate o.migrationDir (w.DatabaseUrl conf.DB) true with
      | some e =>
        have hseq : startSequence w o so = (startCalls w o so conf).take 7 := by
          simp [startSequence, hconf, hmig, startCalls]
        have hf : startFails w o so = true := by simp [startFails, hconf, hmig]
        have hp := fun evs =>
          prefix_start_migFail w o so conf e hconf hmig _ (inv_exec w .start o so evs)
        rw [hseq, hf]
        refine ⟨fun evs => (hp evs).trans (List.prefix_append _ _), fun _ => hp, ?_, ?_⟩
        · rw [runMain_start_migFail w o so conf e hconf hmig 12 (by decide)]
          rfl
        · intro n hn
          rw [runMain_start_migFail w o so conf e hconf hmig n (by omega)]
          simp [migFailState]
      | none =>
        have hseq : startSequence w o so = (startCalls w o so conf).take 11 := by
          simp [startSequence, hconf, hmig, startCalls, startServer, startServerOpts]
        have hfull : (startCalls w o so conf).take 11 ++ [.logFn] = startCalls w o so conf := by
          simp [startCalls]
        have hf : startFails w o so = false := by simp [startFails, hconf, hmig]
        rw [hseq, hf, hfull]
        refine ⟨fun evs => prefix_start_ok w o so conf hconf hmig _ (inv_exec w .start o so evs),
          fun h => by simp at h, ?_, ?_⟩
        · rw [runMain_start_12 w o so conf hconf hmig]
          rfl
        · intro n hn
          have h13 := trace_runMain w .start o so 13 n hn
          rw [runMain_start_13 w o so conf hconf hmig] at h13
          have hle := prefix_start_ok w o so conf hconf hmig _
            (inv_exec w .start o so (List.replicate n .main))
          simpa using List.IsPrefix.eq_of_length_le hle h13.length_le
  refine ⟨hold.1, hold.2.1, hold.2.2.1, hold.2.2.2, ?_⟩
  intro evs hk
  cases hf : startFails w o so with
  | true =>
    have hr := fun h => reached_failure w o so hf evs hk h
    refine ⟨fun h => ?_, fun h => ?_, fun h => ?_⟩
    · rw [(hr (by omega)).1]
    · exact (hr (by omega)).1
    · simpa using (hr (by omega)).1
  | false =>
    cases hconf : w.configNewServer o.configPath so.envPrefix with
    | error e => simp [startFails, hconf] at hf
    | ok conf =>
      cases hmig : w.Migrate o.migrationDir (w.DatabaseUrl conf.DB) true with
      | some e => simp [startFails, hconf, hmig] at hf
      | none =>
        have hseq : startSequence w o so = (startCalls w o so conf).take 11 := by
          simp [startSequence, hconf, hmig, startCalls, startServer, startServerOpts]
        have hfull : (startCalls w o so conf).take 11 ++ [.logFn] = startCalls w o so conf := by
          simp [startCalls]
        obtain ⟨h1, h2, h3, -⟩ := reached_start_ok w o so conf hconf hmig evs hk
        rw [hseq]
        refine ⟨fun h => (h1 h).1, h2, fun h => ?_⟩
        simp only [Bool.false_eq_true, if_false]
        rw [hfull]
        exact h3 h

/-- C6, on a concrete input: a run of `start` in which nothing fails, and one in which the
context is cancelled before line 77 is reached. -/
theorem start_steps_in_order_witness :
    (exec (demoWorld false false) .start opts0 serverOpts0 stopAfterStart).trace <+:
      startSequence (demoWorld false false) opts0 serverOpts0 ++ [.logFn] ∧
    (runMain (demoWorld false false) .start opts0 serverOpts0 12).trace =
      startSequence (demoWorld false false) opts0 serverOpts0 ∧
    (exec (demoWorld false false) .start opts0 serverOpts0 cancelledBeforeRun).trace =
      startSequence (demoWorld false false) opts0 serverOpts0 ++
        (if startFails (demoWorld false false) opts0 serverOpts0 then [] else [.logFn]) :=
  ⟨(start_steps_in_order (demoWorld false false) opts0 serverOpts0).1 stopAfterStart,
    (start_steps_in_order (demoWorld false false) opts0 serverOpts0).2.2.1,
    ((start_steps_in_order (demoWorld false false) opts0 serverOpts0).2.2.2.2
      cancelledBeforeRun (fun sig h => by cases sig <;> exact absurd h (by decide))).2.2
      (by decide)⟩

/-- C7. In every schedule of `seed` the migration is never run and `redis.New` is never
called, and `Seed` is called at most once.  When the configuration loads, in every schedule in
which no signal ended the process, once the main goroutine has taken ten steps, whatever the
signals and the listener goroutine did, the trace starts with: load configuration, initialise
logging, create the context, register both signals, start the listener, `postgres.NewSQLx` on
the database descriptor, `catalog.NewStore` on that handle and an absent cache handle,
`catalog.NewService` on that store and that handle, `Seed` on that service; `NewSQLx`,
`NewStore`, `NewService` and `Seed` were each called exactly once, `Seed` with the context. -/
theorem seed_skips_migration_and_cache (w : World) (o : opts) (so : serverOpts) :
    (∀ evs : List Event,
      invocations .Migrate (exec w .seed o so evs) = 0 ∧
      invocations .redisNew (exec w .seed o so evs) = 0 ∧
      invocations .Seed (exec w .seed o so evs) ≤ 1) ∧
    (∀ conf, w.configNewServer o.configPath so.envPrefix = .ok conf → ∀ n, 10 ≤ n →
      [ .configNewServer o.configPath so.envPrefix,
        .InitializeLogger conf.Log,
        .WithCancel,
        .Notify .Interrupt,
        .Notify .SIGTERM,
        .goListener,
        .NewSQLx conf.DB,
        .NewStore (some (w.NewSQLx conf.DB)) none,
        .NewService (w.NewStore (some (w.NewSQLx conf.DB)) none) (some (w.NewSQLx conf.DB)),
        .Seed (w.NewService (w.NewStore (some (w.NewSQLx conf.DB)) none)
          (some (w.NewSQLx conf.DB))) ] <+: (runMain w .seed o so n).trace ∧
      invocations .Seed (runMain w .seed o so n) = 1 ∧
      invocations .NewSQLx (runMain w .seed o so n) = 1 ∧
      (runMain w .seed o so n).runCtx.isSome = true) ∧
    (∀ conf, w.configNewServer o.configPath so.envPrefix = .ok conf →
      ∀ evs : List Event, (∀ sig, (exec w .seed o so evs).status ≠ .killed sig) →
      10 ≤ evs.count .main →
      [ .configNewServer o.configPath so.envPrefix,
        .InitializeLogger conf.Log,
        .WithCancel,
        .Notify .Interrupt,
        .Notify .SIGTERM,
        .goListener,
        .NewSQLx conf.DB,
        .NewStore (some (w.NewSQLx conf.DB)) none,
        .NewService (w.NewStore (some (w.NewSQLx conf.DB)) none) (some (w.NewSQLx conf.DB)),
        .Seed (w.NewService (w.NewStore (some (w.NewSQLx conf.DB)) none)
          (some (w.NewSQLx conf.DB))) ] <+: (exec w .seed o so evs).trace ∧
      invocations .Seed (exec w .seed o so evs) = 1 ∧
      invocations .NewSQLx (exec w .seed o so evs) = 1 ∧
      invocations .NewStore (exec w .seed o so evs) = 1 ∧
      invocations .NewService (exec w .seed o so evs) = 1 ∧
      (exec w .seed o so evs).runCtx.isSome = true) := by
  refine ⟨?_, ?_, ?_⟩
  · intro evs
    have hinv := inv_exec w .seed o so evs
    cases hconf : w.configNewServer o.configPath so.envPrefix with
    | error e =>
      have hp := prefix_config_error w .seed o so e hconf _ hinv
      exact ⟨Nat.le_zero.mp (invocations_le .Migrate _ _ hp),
        Nat.le_zero.mp (invocations_le .redisNew _ _ hp),
        (invocations_le .Seed _ _ hp).trans (Nat.zero_le 1)⟩
    | ok conf =>
      have hp := prefix_seed_ok w o so conf hconf _ hinv
      exact ⟨Nat.le_zero.mp (invocations_le .Migrate _ _ hp),
        Nat.le_zero.mp (invocations_le .redisNew _ _ hp),
        invocations_le .Seed _ _ hp⟩
  · intro conf hconf n hn
    obtain ⟨h1, h2, h3⟩ := runMain_seed_ge_10 w o so conf hconf n hn
    exact ⟨h1,
      Nat.le_antisymm (invocations_le .Seed _ _ h2)
        (invocations_ge .Seed _ _ h1),
      Nat.le_antisymm (invocations_le .NewSQLx _ _ h2)
        (invocations_ge .NewSQLx _ _ h1),
      by rw [h3]; rfl⟩
  · intro conf hconf evs hk hn
    obtain ⟨h1, hx⟩ := (reached_seed_ok w o so conf hconf evs hk).1 hn
    have h2 := prefix_seed_ok w o so conf hconf _ (inv_exec w .seed o so evs)
    exact ⟨h1,
      Nat.le_antisymm (invocations_le .Seed _ _ h2) (invocations_ge .Seed _ _ h1),
      Nat.le_antisymm (invocations_le .NewSQLx _ _ h2) (invocations_ge .NewSQLx _ _ h1),
      Nat.le_antisymm (invocations_le .NewStore _ _ h2) (invocations_ge .NewStore _ _ h1),
      Nat.le_antisymm (invocations_le .NewService _ _ h2)
        (invocations_ge .NewService _ _ h1),
      hx⟩

/-- C7, on a concrete input: a run of `seed` with a configuration that loads, and one in which
the context is cancelled before line 111 is reached; `Seed` is called all the same, once. -/
theorem seed_skips_migration_and_cache_witness :
    (demoWorld false false).configNewServer opts0.configPath serverOpts0.envPrefix =
      .ok conf0 ∧
    invocations .redisNew (exec (demoWorld false false) .seed opts0 serverOpts0
      (List.replicate 12 .main)) = 0 ∧
    invocations .Seed (runMain (demoWorld false false) .seed opts0 serverOpts0 10) = 1 ∧
    (exec (demoWorld false false) .seed opts0 serverOpts0 cancelledBeforeSeed).runCtx =
      some true ∧
    invocations .Seed (exec (demoWorld false false) .seed opts0 serverOpts0
      cancelledBeforeSeed) = 1 :=
  ⟨rfl,
    ((seed_skips_migration_and_cache (demoWorld false false) opts0 serverOpts0).1 _).2.1,
    ((seed_skips_migration_and_cache (demoWorld false false) opts0 serverOpts0).2.1 conf0 rfl 10
      (by decide)).2.1,
    rfl,
    ((seed_skips_migration_and_cache (demoWorld false false) opts0 serverOpts0).2.2 conf0 rfl
      cancelledBeforeSeed (fun sig h => by cases sig <;> exact absurd h (by decide))
      (by decide)).2.1⟩

end Course
